import Mathlib

/-!
# ClauseWise — verification of the deterministic contract-analysis rule engine

Shallow embedding of the core rule engine of the ClauseWise repository
(`backend/service/ContractAnalyzerService.py` and
`backend/utils/ai_client/client.py`) together with proofs about it.

Python strings are modelled as `List Char` (the type `Chars` below); Python
`dict`-shaped records become Lean structures; functions that can raise become
`Except PyErr _`-valued functions.  Regular-expression matching (the `re`
library is an external collaborator) is embedded by concrete executable
matchers for the specific patterns the code uses; each such definition
carries the pattern it models in its doc string.
-/

set_option autoImplicit false

namespace ClauseWise

/-- Python strings are modelled as lists of characters. -/
abbrev Chars := List Char

/-- Characters the Python `str.strip()` / `\s` class treats as whitespace
(ASCII fragment: space, tab, newline, carriage return, form feed, vertical tab). -/
def pyIsSpace (c : Char) : Bool :=
  c = ' ' || c = '\t' || c = '\n' || c = '\r' || c = '\x0b' || c = '\x0c'

/-- The `needle` occurs as a contiguous substring of `hay` (Python `needle in hay`). -/
def hasSubstr (needle : Chars) : Chars → Bool
  | [] => needle.isPrefixOf []
  | c :: rest => needle.isPrefixOf (c :: rest) || hasSubstr needle rest

/-- Substring test at the `String` level. -/
def strContains (hay needle : String) : Bool :=
  hasSubstr needle.toList hay.toList

/-- Python `str.lower()` (ASCII fragment). -/
def pyLower (s : Chars) : Chars := s.map Char.toLower

/-- Python `str.lstrip()`. -/
def pyLStrip (s : Chars) : Chars := s.dropWhile pyIsSpace

/-- Python `str.rstrip()`. -/
def pyRStrip (s : Chars) : Chars := (pyLStrip s.reverse).reverse

/-- Python `str.strip()`. -/
def pyStrip (s : Chars) : Chars := pyRStrip (pyLStrip s)

/-- Python `s.count(c)` for a single-character needle. -/
def countChar (c : Char) (s : Chars) : Nat := s.countP (· = c)

/-- Python `str.split()` with no argument: split on runs of whitespace,
discarding empty fields. -/
def pySplitWsAux : Chars → Chars → List Chars
  | acc, [] => if acc.isEmpty then [] else [acc.reverse]
  | acc, c :: rest =>
    if pyIsSpace c then
      if acc.isEmpty then pySplitWsAux [] rest
      else acc.reverse :: pySplitWsAux [] rest
    else pySplitWsAux (c :: acc) rest

/-- Python `str.split()` (whitespace splitting, empty fields dropped). -/
def pySplitWs (s : Chars) : List Chars := pySplitWsAux [] s

/-- Number of whitespace-separated words, Python `len(s.split())`. -/
def pyWordCount (s : Chars) : Nat := (pySplitWs s).length

/-- Split on a single-character separator, Python `s.split(sep)` semantics
(keeps empty fields). -/
def splitChar (sep : Char) : Chars → List Chars
  | [] => [[]]
  | c :: rest =>
    if c = sep then [] :: splitChar sep rest
    else
      match splitChar sep rest with
      | [] => [[c]]
      | f :: fs => (c :: f) :: fs

/-- Join fields with a single-character separator (Python `sep.join(fields)`). -/
def joinChar (sep : Char) : List Chars → Chars
  | [] => []
  | [f] => f
  | f :: fs => f ++ sep :: joinChar sep fs

/-- Lines of a text, Python `text.split('\n')`. -/
def splitNl (s : Chars) : List Chars := splitChar '\n' s

/-- Python `'\n'.join(lines)`. -/
def joinNl (ls : List Chars) : Chars := joinChar '\n' ls

/-- Python truthiness / emptiness: `if not s`. -/
def charsEmpty (s : Chars) : Bool := s.isEmpty

/-!
## Risk Scorer — `ContractAnalyzerService.calculate_risk_score`

Embeds the `overall_score` computation of `calculate_risk_score`
(`ContractAnalyzerService.py` lines 769-847): a base score of 100, a running
`risk_deductions` accumulator over compliance issues and flagged clauses, and
a final clamp `max(0, min(100, 100 - risk_deductions))`.
-/

/-- A compliance issue as it appears in an `AnalysisResult`
(`ComplianceFeedback` in the response model): a law identifier and two
parallel string lists. -/
structure PyIssue where
  law : String
  missing_requirements : List String
  recommendations : List String
deriving Repr, DecidableEq

/-- A flagged clause (`ClauseFlag` in the response model). -/
structure PyClause where
  clause_text : String
  issue : String
  severity : String
deriving Repr, DecidableEq

/-- Per-issue deduction of `calculate_risk_score`: CCPA issues are scored on
the 40/30/20/12 ladder over the missing-requirement count, all other laws on
the 25/15/8 ladder (lines 793-810). -/
def issueRiskDeduction (issue : PyIssue) : Int :=
  let missingCount := issue.missing_requirements.length
  if issue.law = "CCPA_US" then
    if missingCount ≥ 5 then 40
    else if missingCount ≥ 3 then 30
    else if missingCount ≥ 2 then 20
    else 12
  else
    if missingCount ≥ 4 then 25
    else if missingCount ≥ 2 then 15
    else 8

/-- Per-clause deduction of `calculate_risk_score` (lines 816-827): 20 for
severity `"high"`, 12 for `"medium"`, 5 otherwise. -/
def clauseRiskDeduction (clause : PyClause) : Int :=
  if clause.severity = "high" then 20
  else if clause.severity = "medium" then 12
  else 5

/-- The `risk_deductions` accumulator after both loops of
`calculate_risk_score`: a fold over the compliance issues followed by a fold
over the flagged clauses. -/
def riskDeductions (issues : List PyIssue) (clauses : List PyClause) : Int :=
  let afterIssues := issues.foldl (fun acc issue => acc + issueRiskDeduction issue) 0
  clauses.foldl (fun acc clause => acc + clauseRiskDeduction clause) afterIssues

/-- The `final_score = max(0, min(100, base_risk_score - risk_deductions))`
(line 830), with `base_risk_score = 100`. -/
def calculateOverallScore (issues : List PyIssue) (clauses : List PyClause) : Int :=
  max 0 (min 100 (100 - riskDeductions issues clauses))

/-!
## Jurisdiction / applicable-law data and the AI-response compliance cleaning

Embeds the compliance-issue part of `_clean_ai_response`
(`ContractAnalyzerService.py` lines 1305-1398) together with its helpers
`_select_appropriate_law`, `_get_default_law_for_jurisdiction`,
`_is_generic_placeholder`, `_generate_specific_requirements`,
`_generate_specific_recommendations`, and the separate guard
`_validate_compliance_issues` (lines 2222-2273).
-/

/-- The `valid_laws` (line 1324 / 1421). -/
def validLaws : List String :=
  ["EMPLOYMENT_ACT_MY", "PDPA_MY", "PDPA_SG", "GDPR_EU", "CCPA_US"]

/-- The `jurisdiction_laws` (lines 1353-1358 and 2228-2233): `.get(j, [])`. -/
def jurisdictionLaws (j : String) : List String :=
  if j = "MY" then ["EMPLOYMENT_ACT_MY", "PDPA_MY"]
  else if j = "SG" then ["PDPA_SG"]
  else if j = "EU" then ["GDPR_EU"]
  else if j = "US" then ["CCPA_US"]
  else []

/-- The `jurisdiction_priority` of `_select_appropriate_law` (lines 1405-1410). -/
def jurisdictionPriority (j : String) : List String :=
  if j = "MY" then ["PDPA_MY", "EMPLOYMENT_ACT_MY"]
  else if j = "SG" then ["PDPA_SG"]
  else if j = "EU" then ["GDPR_EU"]
  else if j = "US" then ["CCPA_US"]
  else []

/-- The `_get_default_law_for_jurisdiction` (lines 1429-1450); returns Python
`None` (here `none`) for an unknown jurisdiction. -/
def getDefaultLawForJurisdiction (j : String) : Option String :=
  if j = "MY" then some "PDPA_MY"
  else if j = "SG" then some "PDPA_SG"
  else if j = "EU" then some "GDPR_EU"
  else if j = "US" then some "CCPA_US"
  else none

/-- Python `s.strip()` at the `String` level. -/
def stripStr (s : String) : String := String.mk (pyStrip s.toList)

/-- The `_select_appropriate_law` (lines 1400-1427): first matching priority law,
then the first stripped option that is a valid law, then the jurisdiction
default (possibly `None`). -/
def selectAppropriateLaw (lawOptions : List String) (j : String) : Option String :=
  match (jurisdictionPriority j).find? (fun p => lawOptions.contains p) with
  | some p => some p
  | none =>
    match lawOptions.find? (fun l => validLaws.contains (stripStr l)) with
    | some l => some (stripStr l)
    | none => getDefaultLawForJurisdiction j

/-- The `generic_phrases` of `_is_generic_placeholder` (lines 1456-1463). -/
def genericPhrases : List String :=
  ["specific statutory requirements missing",
   "specific actionable legal compliance steps",
   "general compliance concern identified",
   "review with legal counsel",
   "statutory requirements missing",
   "actionable legal compliance steps"]

/-- The `_is_generic_placeholder` (lines 1452-1466). -/
def isGenericPlaceholder (text : String) : Bool :=
  let textLower := pyLower text.toList
  genericPhrases.any (fun phrase => hasSubstr phrase.toList textLower)

/-- The `requirements_map` of `_generate_specific_requirements` (lines 1473-1517),
with the function's `.get(law, [...])` default. -/
def generateSpecificRequirements (law : String) (_j : String) : List String :=
  if law = "EMPLOYMENT_ACT_MY" then
    ["Termination notice provisions do not meet Employment Act 1955 Section 12 minimum requirements (2 weeks for <2 years service, 4 weeks for >2 years service)",
     "Missing overtime compensation violates Employment Act 1955 Section 60A (minimum 1.5x normal hourly rate required)",
     "Working hours may exceed Employment Act 1955 Section 60A maximum (8 hours/day, 48 hours/week)",
     "Annual leave entitlement below Employment Act 1955 Section 60E minimum (8-16 days based on service length)",
     "Probation period may exceed Employment Act 1955 Section 11 maximum of 6 months",
     "Missing rest day and public holiday provisions required under Employment Act 1955 Sections 60C, 60D",
     "Missing EPF contribution provisions required under EPF Act 1991 (11% employee, 12-13% employer)",
     "Missing SOCSO contribution provisions required under SOCSO Act 1969",
     "Salary may be below minimum wage requirement of RM1,500 under Minimum Wages Order 2022"]
  else if law = "PDPA_MY" then
    ["Missing explicit consent mechanisms required under Personal Data Protection Act 2010",
     "Lacks data subject rights provisions (access, correction, withdrawal) as mandated by PDPA 2010",
     "Missing purpose limitation clauses required under PDPA 2010 Section 6",
     "Insufficient data security safeguards as required under PDPA 2010 Section 7"]
  else if law = "PDPA_SG" then
    ["Missing consent notification requirements under Singapore PDPA 2012",
     "Lacks data protection officer designation as required by PDPA",
     "Missing purpose specification and limitation under PDPA 2012"]
  else if law = "GDPR_EU" then
    ["Missing lawful basis for processing personal data under GDPR Article 6",
     "Lacks data subject rights implementation as required by GDPR Articles 15-22",
     "Missing data protection impact assessment requirements under GDPR Article 35",
     "Insufficient cross-border data transfer safeguards under GDPR Chapter V"]
  else if law = "CCPA_US" then
    ["Missing Right to Correct personal information under CCPA  1798.106",
     "Missing Right to Limit Use of Sensitive Personal Information under CCPA  1798.121",
     "Missing Right of Non-Discrimination under CCPA  1798.125",
     "Discriminatory practices for opt-out requests violate CCPA  1798.125(a)",
     "Inadequate contact methods - CCPA  1798.130(a)(1) requires at least 2 methods including toll-free number",
     "Response time violations - CCPA  1798.130(a)(2) requires initial response within 45 days",
     "Prohibited fee structure - CCPA  1798.130(a)(2) prohibits charging consumers for exercising rights",
     "Service provider violations - CCPA  1798.140(ag) restricts service provider data use",
     "Incomplete Notice at Collection missing CCPA-specific PI categories under  1798.100(b)",
     "Missing data sale disclosure and opt-out requirements under CCPA  1798.115",
     "Missing consumer privacy rights disclosure under CCPA Section 1798.100",
     "Lacks opt-out mechanisms as required by California Consumer Privacy Act",
     "Missing data sale disclosure requirements under CCPA Section 1798.115"]
  else ["Contract requires legal review for compliance"]

/-- The `recommendations_map` of `_generate_specific_recommendations`
(lines 1526-1570), with the function's `.get(law, [...])` default. -/
def generateSpecificRecommendations (law : String) (_j : String) : List String :=
  if law = "EMPLOYMENT_ACT_MY" then
    ["Add termination clause specifying minimum notice periods: 2 weeks for employees with <2 years service, 4 weeks for >2 years service as per Section 12",
     "Include overtime payment clause requiring minimum 1.5x normal hourly rate as mandated by Section 60A",
     "Specify working hours limits: maximum 8 hours per day and 48 hours per week as per Section 60A",
     "Include annual leave entitlement: 8 days (<2 years), 12 days (2-5 years), 16 days (>5 years) as per Section 60E",
     "Limit probation period to maximum 6 months as required by Section 11",
     "Add rest day provisions (1 day per week) and gazetted public holiday entitlements as per Sections 60C, 60D",
     "Include EPF contribution clause: 11% employee contribution, 12-13% employer contribution as per EPF Act 1991",
     "Add SOCSO contribution clause for employment injury and invalidity coverage as per SOCSO Act 1969",
     "Ensure monthly salary meets minimum wage of RM1,500 as per Minimum Wages Order 2022"]
  else if law = "PDPA_MY" then
    ["Implement clear consent procedures with opt-in mechanisms before collecting personal data",
     "Add comprehensive data subject rights clauses covering access, correction, and withdrawal of consent",
     "Include purpose limitation clause specifying exact purposes for data collection and processing",
     "Implement robust data security measures including encryption and access controls"]
  else if law = "PDPA_SG" then
    ["Include notification requirements before collecting personal data with clear purpose statements",
     "Designate data protection officer and include contact details",
     "Implement consent withdrawal mechanisms and data portability procedures"]
  else if law = "GDPR_EU" then
    ["Establish clear lawful basis for each type of data processing under Article 6",
     "Implement comprehensive data subject rights response procedures for Articles 15-22",
     "Conduct data protection impact assessments for high-risk processing",
     "Implement appropriate safeguards for international data transfers"]
  else if law = "CCPA_US" then
    ["Implement all required CCPA consumer rights: Right to Know, Delete, Correct, Limit Use of Sensitive PI, and Non-Discrimination",
     "Provide at least 2 contact methods including toll-free number as required by CCPA  1798.130(a)(1)",
     "Ensure initial response within 45 days and total fulfillment within 90 days per CCPA  1798.130(a)(2)",
     "Remove all fees for consumer rights requests - CCPA prohibits charging consumers",
     "Restrict service providers to specific business purposes only - prohibit use for their own purposes",
     "Include comprehensive Notice at Collection with all CCPA-required PI categories and disclosures",
     "Implement proper opt-out mechanisms for data selling under CCPA  1798.115",
     "Remove discriminatory practices - cannot charge fees or limit services for exercising rights",
     "Add consumer privacy notice with clear disclosure of data practices under Section 1798.100",
     "Implement opt-out mechanisms for data selling and sharing under Section 1798.120",
     "Establish procedures for consumer rights requests under CCPA"]
  else ["Consult legal counsel for jurisdiction-specific compliance"]

/-- One iteration of the compliance loop of `_clean_ai_response`
(lines 1326-1392): blocks for foreign employment law, repair of `|`-joined or
invalid law fields, the final jurisdiction guard, and the placeholder cleanup
of `missing_requirements` / `recommendations`.  `none` models `continue`
(the issue is dropped). -/
def cleanOneComplianceIssue (j : String) (issue : PyIssue) : Option PyIssue :=
  let lawField := issue.law
  if j = "US" ∧ lawField = "EMPLOYMENT_ACT_MY" then none
  else if lawField = "EMPLOYMENT_ACT_MY" ∧ j ≠ "MY" then none
  else
    let fixedLaw : Option String :=
      if strContains lawField "|" then
        selectAppropriateLaw (lawField.splitOn "|") j
      else if ¬ lawField ∈ validLaws then
        getDefaultLawForJurisdiction j
      else some lawField
    match fixedLaw with
    | none => none
    | some finalLaw =>
      if finalLaw ∈ jurisdictionLaws j then
        let cleanedReqs :=
          issue.missing_requirements.filter
            (fun req => ¬ req = "" ∧ ¬ isGenericPlaceholder req = true)
        let reqs := if cleanedReqs.isEmpty then generateSpecificRequirements finalLaw j
                    else cleanedReqs
        let cleanedRecs :=
          issue.recommendations.filter
            (fun rec => ¬ rec = "" ∧ ¬ isGenericPlaceholder rec = true)
        let recs := if cleanedRecs.isEmpty then generateSpecificRecommendations finalLaw j
                    else cleanedRecs
        some { law := finalLaw, missing_requirements := reqs, recommendations := recs }
      else none

/-- The compliance-issue loop of `_clean_ai_response` over a whole list. -/
def cleanComplianceIssues (issues : List PyIssue) (j : String) : List PyIssue :=
  issues.filterMap (cleanOneComplianceIssue j)

/-- One iteration of `_validate_compliance_issues` (lines 2237-2270). -/
def validateOneComplianceIssue (j : String) (issue : PyIssue) : Option PyIssue :=
  if ¬ issue.law ∈ jurisdictionLaws j then none
  else if issue.missing_requirements.isEmpty then none
  else if issue.recommendations.isEmpty then none
  else
    let validReqs :=
      issue.missing_requirements.filter
        (fun req => ¬ req = "" ∧ (pyStrip req.toList).length > 10 ∧
                    ¬ isGenericPlaceholder req = true)
    let validRecs :=
      issue.recommendations.filter
        (fun rec => ¬ rec = "" ∧ (pyStrip rec.toList).length > 10 ∧
                    ¬ isGenericPlaceholder rec = true)
    if ¬ validReqs.isEmpty ∧ ¬ validRecs.isEmpty then
      some { law := issue.law, missing_requirements := validReqs,
             recommendations := validRecs }
    else none

/-- The `_validate_compliance_issues` over a whole list (lines 2222-2273). -/
def validateComplianceIssues (issues : List PyIssue) (j : String) : List PyIssue :=
  issues.filterMap (validateOneComplianceIssue j)

/-!
## Substantive-issue post-filter

Embeds `_is_substantive_clause` (lines 1572-1598) and
`_is_substantive_legal_issue` (lines 2426-2476) of
`ContractAnalyzerService.py`.
-/

/-- The `formatting_indicators` of `_is_substantive_clause` (lines 1582-1586). -/
def formattingIndicators : List String :=
  ["###", "##", "#", "**", "*", "```", "---", "===",
   "summary", "analysis", "review", "note", "generated",
   "created by", "document", "title", "header", "footer"]

/-- The `legal_indicators` of `_is_substantive_clause` (lines 1592-1596). -/
def legalIndicators : List String :=
  ["shall", "will", "agree", "party", "parties", "contract",
   "obligation", "right", "term", "condition", "provision",
   "whereas", "therefore", "hereby", "subject to"]

/-- The `_is_substantive_clause` (lines 1572-1598). -/
def isSubstantiveClause (clauseText : String) : Bool :=
  if clauseText = "" ∨ (pyStrip clauseText.toList).length < 20 then false
  else
    let clauseLower := pyLower clauseText.toList
    if formattingIndicators.any (fun ind => hasSubstr ind.toList clauseLower) then false
    else legalIndicators.any (fun ind => hasSubstr ind.toList clauseLower)

/-- The `generic_indicators` of `_is_substantive_legal_issue` (lines 2439-2443). -/
def genericIndicators : List String :=
  ["review recommended", "consider adding", "may want to include",
   "formatting issue", "style concern", "minor adjustment",
   "cosmetic change", "presentation"]

/-- The `legal_significance` of `_is_substantive_legal_issue` (lines 2450-2454). -/
def legalSignificanceTokens : List String :=
  ["violates", "violation", "non-compliance", "prohibited", "illegal",
   "breach", "contravenes", "mandatory", "required by law", "statutory",
   "regulation", "act", "section", "article", "code", "ordinance"]

/-- The `legal_concepts` of `_is_substantive_legal_issue` (lines 2466-2470). -/
def legalConcepts : List String :=
  ["liability", "damages", "termination", "breach", "warranty",
   "indemnification", "jurisdiction", "governing law", "arbitration",
   "intellectual property", "confidentiality", "non-disclosure"]

/-- The `_is_substantive_legal_issue` (lines 2426-2476).  High-severity issues are
always accepted (lines 2434-2436); otherwise generic wording is rejected, a
legal-significance token or a long substantive clause accepts, medium-severity
issues get the legal-concept fallback, and everything else is rejected. -/
def isSubstantiveLegalIssue (issue : PyClause) : Bool :=
  if issue.severity = "high" then true
  else
    let issueLower := pyLower issue.issue.toList
    if genericIndicators.any (fun ind => hasSubstr ind.toList issueLower) then false
    else if legalSignificanceTokens.any (fun ind => hasSubstr ind.toList issueLower) then
      true
    else if issue.clause_text.toList.length > 30 ∧ isSubstantiveClause issue.clause_text then
      true
    else if issue.severity = "medium" then
      let combined := pyLower (issue.issue.toList ++ ' ' :: issue.clause_text.toList)
      legalConcepts.any (fun con => hasSubstr con.toList combined)
    else false

/-!
## Contract Classifier

Embeds the contract-type scoring of `_analyze_contract_metadata`
(`ContractAnalyzerService.py` lines 948-1017, the later, overriding
definition of the method).
-/

/-- One weighted keyword family: (type name, strong, moderate, weak). -/
structure TypeFamily where
  name : String
  strong : List String
  moderate : List String
  weak : List String
deriving Repr, DecidableEq

/-- The `type_indicators` (lines 952-988), in dict insertion order. -/
def typeIndicators : List TypeFamily :=
  [⟨"Employment",
    ["employee", "employer", "employment", "position", "job duties", "workplace",
     "termination of employment"],
    ["salary", "wage", "work schedule", "benefits", "leave", "resignation"],
    ["work", "duties", "responsibilities"]⟩,
   ⟨"Service",
    ["service provider", "client", "deliverables", "scope of work", "statement of work"],
    ["services", "performance", "completion", "milestone"],
    ["provide", "deliver", "complete"]⟩,
   ⟨"Privacy",
    ["privacy policy", "privacy notice", "california consumer privacy act", "ccpa",
     "personal information collection", "privacy rights"],
    ["personal information", "data collection", "consumer rights", "privacy",
     "california resident"],
    ["collect", "information", "data"]⟩,
   ⟨"NDA",
    ["non-disclosure", "confidentiality agreement", "trade secret", "proprietary information"],
    ["confidential", "proprietary", "confidentiality"],
    ["information", "disclosure"]⟩,
   ⟨"Rental",
    ["landlord", "tenant", "lease agreement", "rental agreement", "premises"],
    ["rent", "lease", "property", "occupancy"],
    ["monthly", "deposit"]⟩,
   ⟨"Sales",
    ["purchase agreement", "sale agreement", "buyer", "seller", "transfer of ownership"],
    ["purchase", "sale", "goods", "products", "delivery"],
    ["buy", "sell", "payment"]⟩,
   ⟨"Partnership",
    ["partnership agreement", "joint venture", "business partnership", "profit sharing"],
    ["partner", "partnership", "collaboration", "venture"],
    ["together", "joint", "share"]⟩]

/-- The score loop for one keyword family (lines 991-1009): +3 per present
strong indicator, +2 per moderate, +1 per weak, each tested by substring
membership in the lowercased text. -/
def familyScore (textLower : Chars) (fam : TypeFamily) : Nat :=
  let afterStrong := fam.strong.foldl
    (fun acc ind => if hasSubstr ind.toList textLower then acc + 3 else acc) 0
  let afterModerate := fam.moderate.foldl
    (fun acc ind => if hasSubstr ind.toList textLower then acc + 2 else acc) afterStrong
  fam.weak.foldl
    (fun acc ind => if hasSubstr ind.toList textLower then acc + 1 else acc) afterModerate

/-- The `type_scores` dict (name, score), in insertion order. -/
def typeScores (text : String) : List (String × Nat) :=
  let textLower := pyLower text.toList
  typeIndicators.map (fun fam => (fam.name, familyScore textLower fam))

/-- Python `max(type_scores, key=type_scores.get)`: the first key attaining
the maximal score, replaced only on a strictly greater later score. -/
def firstMaxEntry (first : String × Nat) (rest : List (String × Nat)) : String × Nat :=
  rest.foldl (fun best e => if e.2 > best.2 then e else best) first

/-- Contract-type selection (lines 949 and 1011-1015): the best-scoring type
if its score is at least 3, otherwise the initial value `"General"`. -/
def selectContractType (text : String) : String :=
  match typeScores text with
  | [] => "General"
  | e :: rest =>
    let best := firstMaxEntry e rest
    if best.2 ≥ 3 then best.1 else "General"

/-- Score of a named type, `type_scores.get(name)` with default 0. -/
def typeScoreFor (text name : String) : Nat :=
  ((typeScores text).lookup name).getD 0

/-- The type names of `type_indicators`. -/
def typeNames : List String := typeIndicators.map TypeFamily.name

/-!
## Section Extractor

Embeds `_extract_contract_sections_only` (lines 1093-1154),
`_is_genuine_contract_section` (lines 1156-1215) and
`_extract_meaningful_paragraphs` (lines 1217-1236).  The four structural
regular expressions are evaluated by Python's external `re` engine; their
match lists (the tuples of captured groups, in match order, one list per
pattern) enter the embedding as the `patternMatches` argument.  The float
ratio comparisons `special/len > 0.4` and `upper/alpha > 0.7` are embedded as
the exact rational comparisons `5*special > 2*max len 1` and
`10*upper > 7*max alpha 1`.
-/

/-- A section record as built by `_extract_contract_sections_only`. -/
structure PySection where
  id : String
  title : String
  content : String
  word_count : Nat
  pattern_used : Nat
deriving Repr, DecidableEq

/-- The groups of one `re.finditer` match of a section pattern. -/
structure RawMatch where
  groups : List String
deriving Repr, DecidableEq

/-- The `non_contract_titles` of `_is_genuine_contract_section` (lines 1165-1171). -/
def nonContractTitles : List String :=
  ["summary", "analysis", "review", "note", "disclaimer", "generated",
   "created", "overview", "introduction", "conclusion", "appendix",
   "table of contents", "index", "header", "footer", "document",
   "title", "subject", "re:", "from:", "to:", "date:", "version",
   "page", "confidential", "draft", "final", "approved"]

/-- The `contract_indicators` of `_is_genuine_contract_section` (lines 1203-1207). -/
def contractIndicators : List String :=
  ["party", "parties", "agreement", "contract", "shall", "will",
   "hereby", "whereas", "therefore", "obligations", "rights",
   "terms", "conditions", "provision", "clause", "section"]

/-- Sentence-terminator characters of the pattern `[.!?]+`. -/
def isSentChar (c : Char) : Bool := c = '.' || c = '!' || c = '?'

/-- Number of maximal runs of characters satisfying `p`
(`len(re.findall(r'[.!?]+', s))` for `p = isSentChar`). -/
def runCountAux (p : Char → Bool) : Bool → Chars → Nat
  | _, [] => 0
  | inRun, c :: rest =>
    if p c then
      if inRun then runCountAux p true rest else 1 + runCountAux p true rest
    else runCountAux p false rest

/-- Number of maximal runs of characters satisfying `p`. -/
def runCount (p : Char → Bool) (s : Chars) : Nat := runCountAux p false s

/-- Number of distinct contract indicators present in the lowercased content
(line 1209). -/
def contractIndicatorCount (contentLower : Chars) : Nat :=
  contractIndicators.countP (fun ind => hasSubstr ind.toList contentLower)

/-- The `_is_genuine_contract_section` (lines 1156-1215). -/
def isGenuineContractSection (title content : String) : Bool :=
  let titleLower := pyLower title.toList
  let contentChars := content.toList
  let contentLower := pyLower contentChars
  if nonContractTitles.any (fun t => hasSubstr t.toList titleLower) then false
  else if (pyStrip contentChars).length < 50 then false
  else
    let specialCount := contentChars.countP (fun c => !(c.isAlphanum || pyIsSpace c))
    if 5 * specialCount > 2 * max contentChars.length 1 then false
    else
      let upperCount := contentChars.countP Char.isUpper
      let alphaCount := contentChars.countP Char.isAlpha
      if 10 * upperCount > 7 * max alphaCount 1 then false
      else
        let wordCount := pyWordCount contentChars
        let sentenceCount := runCount isSentChar contentChars
        if wordCount < 15 ∨ sentenceCount < 1 then false
        else 2 ≤ contractIndicatorCount contentLower

/-- Build the section dict from the groups of one match (lines 1118-1139):
3 groups give `(section_id, title, content)`, 2 groups synthesize an id from
the current section count; anything else never occurs for these patterns.
The genuineness guard must pass for the section to be appended. -/
def mkSectionFromGroups (curCount : Nat) (patternIdx : Nat) (gs : List String) :
    Option PySection :=
  match gs with
  | [sid, t, c] =>
    let title := stripStr t
    let content := stripStr c
    if isGenuineContractSection title content then
      some ⟨sid, title, content, pyWordCount content.toList, patternIdx + 1⟩
    else none
  | [t, c] =>
    let title := stripStr t
    let content := stripStr c
    if isGenuineContractSection title content then
      some ⟨"Section " ++ toString (curCount + 1), title, content,
            pyWordCount content.toList, patternIdx + 1⟩
    else none
  | _ => none

/-- The inner match loop for one pattern (lines 1118-1139). -/
def foldPatternMatches (patternIdx : Nat) (acc : List PySection)
    (ms : List RawMatch) : List PySection :=
  ms.foldl
    (fun a m =>
      match mkSectionFromGroups a.length patternIdx m.groups with
      | some s => a ++ [s]
      | none => a)
    acc

/-- The outer pattern loop (lines 1115-1143), stopping early once at least 3
sections were found by one pattern family. -/
def runSectionPatterns : Nat → List (List RawMatch) → List PySection → List PySection
  | _, [], acc => acc
  | idx, ms :: rest, acc =>
    let acc' := foldPatternMatches idx acc ms
    if acc'.length ≥ 3 then acc' else runSectionPatterns (idx + 1) rest acc'

/-- The `re.split(r'\n\s*\n\s*', text)`: split at each whitespace run that starts
with a newline and contains at least two newlines (the run is consumed). -/
def splitParagraphsAux : Nat → Chars → Chars → List Chars
  | _, acc, [] => [acc.reverse]
  | 0, acc, rest => [acc.reverse ++ rest]
  | fuel + 1, acc, c :: rest =>
    if c = '\n' ∧ 2 ≤ countChar '\n' (List.takeWhile pyIsSpace (c :: rest)) then
      acc.reverse :: splitParagraphsAux fuel [] (List.dropWhile pyIsSpace (c :: rest))
    else splitParagraphsAux fuel (c :: acc) rest

/-- Paragraphs of a text under `re.split(r'\n\s*\n\s*', text)`. -/
def splitParagraphs (s : Chars) : List Chars :=
  splitParagraphsAux s.length [] s

/-- The `_extract_meaningful_paragraphs` (lines 1217-1236). -/
def extractMeaningfulParagraphs (text : String) : List PySection :=
  (splitParagraphs text.toList).enum.filterMap (fun ip =>
    let i := ip.1
    let p := stripStr (String.mk ip.2)
    if isGenuineContractSection ("Paragraph " ++ toString (i + 1)) p then
      some ⟨"P" ++ toString (i + 1), "Paragraph " ++ toString (i + 1), p,
            pyWordCount p.toList, 0⟩
    else none)

/-- The `_extract_contract_sections_only` (lines 1093-1154): pattern loop,
paragraph fallback when fewer than 2 sections passed, stable sort by word
count descending, top 10 retained. -/
def extractContractSectionsOnly (patternMatches : List (List RawMatch))
    (text : String) : List PySection :=
  let sections := runSectionPatterns 0 patternMatches []
  let sections :=
    if sections.length < 2 then sections ++ extractMeaningfulParagraphs text
    else sections
  (sections.mergeSort (fun a b => decide (b.word_count ≤ a.word_count))).take 10

/-!
## JSON model, parser and serializer

Model of the JSON values handled by `json.loads` / `json.dumps` in
`backend/utils/ai_client/client.py`.  Numbers keep their source lexeme (no
floating point is modelled); `json.loads` is embedded as a fuel-bounded
recursive-descent parser `jsonLoads` accepting the strict JSON grammar plus
Python's `NaN` / `Infinity` extensions; `json.dumps` is embedded as
`dumpJson` with Python's default separators.
-/

/-- Exceptions the embedded Python code can raise. -/
inductive PyErr where
  | indexError
  | attributeError
  | typeError
deriving Repr, DecidableEq

/-- JSON values. -/
inductive Json where
  | jnull
  | jbool (b : Bool)
  | jnum (lexeme : String)
  | jstr (s : String)
  | jarr (elems : List Json)
  | jobj (fields : List (String × Json))

/-- JSON whitespace accepted between tokens by `json.loads`. -/
def jsonWs (c : Char) : Bool := c = ' ' || c = '\t' || c = '\n' || c = '\r'

/-- Skip JSON whitespace. -/
def skipJsonWs (s : Chars) : Chars := s.dropWhile jsonWs

/-- Hex digit value. -/
def hexVal (c : Char) : Option Nat :=
  if '0' ≤ c ∧ c ≤ '9' then some (c.toNat - '0'.toNat)
  else if 'a' ≤ c ∧ c ≤ 'f' then some (c.toNat - 'a'.toNat + 10)
  else if 'A' ≤ c ∧ c ≤ 'F' then some (c.toNat - 'A'.toNat + 10)
  else none

/-- Lex the body of a JSON string literal (after the opening quote); decodes
the simple escapes and `\uXXXX` (surrogate pairing is not modelled — no
witness in this file uses it).  Raw control characters are rejected, as in
strict `json.loads`. -/
def lexJsonString : Chars → Option (Chars × Chars)
  | [] => none
  | '"' :: rest => some ([], rest)
  | '\\' :: esc =>
    match esc with
    | 'u' :: h1 :: h2 :: h3 :: h4 :: rest =>
      match hexVal h1, hexVal h2, hexVal h3, hexVal h4 with
      | some a, some b, some c, some d =>
        match lexJsonString rest with
        | some (tailChars, r) =>
          some (Char.ofNat (((a * 16 + b) * 16 + c) * 16 + d) :: tailChars, r)
        | none => none
      | _, _, _, _ => none
    | e :: rest =>
      let decoded : Option Char :=
        if e = '"' then some '"'
        else if e = '\\' then some '\\'
        else if e = '/' then some '/'
        else if e = 'b' then some '\x08'
        else if e = 'f' then some '\x0c'
        else if e = 'n' then some '\n'
        else if e = 'r' then some '\r'
        else if e = 't' then some '\t'
        else none
      match decoded with
      | some c =>
        match lexJsonString rest with
        | some (tailChars, r) => some (c :: tailChars, r)
        | none => none
      | none => none
    | [] => none
  | c :: rest =>
    if c.toNat < 0x20 then none
    else
      match lexJsonString rest with
      | some (tailChars, r) => some (c :: tailChars, r)
      | none => none

/-- Lex a JSON number (strict grammar `-?(0|[1-9][0-9]*)(\.[0-9]+)?([eE][+-]?[0-9]+)?`),
returning the lexeme and the remainder. -/
def lexJsonNumber (s : Chars) : Option (Chars × Chars) :=
  let (sign, s1) :=
    match s with
    | '-' :: rest => (['-'], rest)
    | _ => (([] : Chars), s)
  match s1 with
  | [] => none
  | c :: _ =>
    if ¬ c.isDigit then none
    else
      let digits := s1.takeWhile Char.isDigit
      if c = '0' ∧ digits.length > 1 then none
      else
        let s2 := s1.drop digits.length
        let (fracPart, s3) :=
          match s2 with
          | '.' :: afterDot =>
            let fd := afterDot.takeWhile Char.isDigit
            if fd.isEmpty then (none, s2)
            else (some ('.' :: fd), afterDot.drop fd.length)
          | _ => ((none : Option Chars), s2)
        match fracPart, s2 with
        | none, '.' :: _ => none
        | _, _ =>
          let (expPart, s4) :=
            match s3 with
            | e :: afterE =>
              if e = 'e' ∨ e = 'E' then
                let (esign, s3b) :=
                  match afterE with
                  | '+' :: r => (['+'], r)
                  | '-' :: r => (['-'], r)
                  | _ => (([] : Chars), afterE)
                let ed := s3b.takeWhile Char.isDigit
                if ed.isEmpty then (none, s3)
                else (some (e :: esign ++ ed), s3b.drop ed.length)
              else ((none : Option Chars), s3)
            | [] => (none, s3)
          match expPart, s3 with
          | none, e :: _ =>
            if e = 'e' ∨ e = 'E' then none
            else some (sign ++ digits ++ fracPart.getD [], s3)
          | _, _ =>
            some (sign ++ digits ++ fracPart.getD [] ++ expPart.getD [], s4)

mutual

/-- Parse one JSON value (fuel-bounded recursive descent). -/
def parseJsonVal : Nat → Chars → Option (Json × Chars)
  | 0, _ => none
  | fuel + 1, s =>
    let s := skipJsonWs s
    match s with
    | '"' :: rest =>
      match lexJsonString rest with
      | some (cs, r) => some (.jstr (String.mk cs), r)
      | none => none
    | '\x7b' :: rest => parseJsonObjFirst fuel rest
    | '[' :: rest => parseJsonArrFirst fuel rest
    | _ =>
      if ("null".toList).isPrefixOf s then some (.jnull, s.drop 4)
      else if ("true".toList).isPrefixOf s then some (.jbool true, s.drop 4)
      else if ("false".toList).isPrefixOf s then some (.jbool false, s.drop 5)
      else if ("NaN".toList).isPrefixOf s then some (.jnum "NaN", s.drop 3)
      else if ("Infinity".toList).isPrefixOf s then some (.jnum "Infinity", s.drop 8)
      else if ("-Infinity".toList).isPrefixOf s then some (.jnum "-Infinity", s.drop 9)
      else
        match lexJsonNumber s with
        | some (lx, r) => some (.jnum (String.mk lx), r)
        | none => none

/-- Array items directly after `[`. -/
def parseJsonArrFirst : Nat → Chars → Option (Json × Chars)
  | 0, _ => none
  | fuel + 1, s =>
    match skipJsonWs s with
    | ']' :: r => some (.jarr [], r)
    | s' =>
      match parseJsonVal fuel s' with
      | some (v, r) => parseJsonArrRest fuel [v] r
      | none => none

/-- Array items after at least one parsed item. -/
def parseJsonArrRest : Nat → List Json → Chars → Option (Json × Chars)
  | 0, _, _ => none
  | fuel + 1, acc, s =>
    match skipJsonWs s with
    | ',' :: r =>
      match parseJsonVal fuel r with
      | some (v, r') => parseJsonArrRest fuel (acc ++ [v]) r'
      | none => none
    | ']' :: r => some (.jarr acc, r)
    | _ => none

/-- Object fields directly after the opening brace. -/
def parseJsonObjFirst : Nat → Chars → Option (Json × Chars)
  | 0, _ => none
  | fuel + 1, s =>
    match skipJsonWs s with
    | '\x7d' :: r => some (.jobj [], r)
    | s' =>
      match parseJsonField fuel s' with
      | some (k, v, r) => parseJsonObjRest fuel [(k, v)] r
      | none => none

/-- One `"key": value` field. -/
def parseJsonField : Nat → Chars → Option (String × Json × Chars)
  | 0, _ => none
  | fuel + 1, s =>
    match skipJsonWs s with
    | '"' :: rest =>
      match lexJsonString rest with
      | some (key, r) =>
        match skipJsonWs r with
        | ':' :: r' =>
          match parseJsonVal fuel r' with
          | some (v, r'') => some (String.mk key, v, r'')
          | none => none
        | _ => none
      | none => none
    | _ => none

/-- Object fields after at least one parsed field. -/
def parseJsonObjRest : Nat → List (String × Json) → Chars → Option (Json × Chars)
  | 0, _, _ => none
  | fuel + 1, acc, s =>
    match skipJsonWs s with
    | ',' :: r =>
      match parseJsonField fuel r with
      | some (k, v, r') => parseJsonObjRest fuel (acc ++ [(k, v)]) r'
      | none => none
    | '\x7d' :: r => some (.jobj acc, r)
    | _ => none

end

/-- The `json.loads`: parse a whole string, tolerating trailing whitespace only. -/
def jsonLoads (s : String) : Option Json :=
  match parseJsonVal (4 * (s.toList.length + 4)) s.toList with
  | some (v, rest) => if (skipJsonWs rest).isEmpty then some v else none
  | none => none

/-- Escape one character for a JSON string literal (`json.dumps`, ASCII
output). -/
def dumpJsonChar (c : Char) : List Char :=
  if c = '"' then ['\\', '"']
  else if c = '\\' then ['\\', '\\']
  else if c = '\n' then ['\\', 'n']
  else if c = '\r' then ['\\', 'r']
  else if c = '\t' then ['\\', 't']
  else if c = '\x08' then ['\\', 'b']
  else if c = '\x0c' then ['\\', 'f']
  else if c.toNat < 0x20 then
    let hexDigit (n : Nat) : Char :=
      if n < 10 then Char.ofNat ('0'.toNat + n) else Char.ofNat ('a'.toNat + n - 10)
    ['\\', 'u', '0', '0', hexDigit (c.toNat / 16), hexDigit (c.toNat % 16)]
  else [c]

/-- The `json.dumps` of a string. -/
def dumpJsonStr (s : String) : String :=
  String.mk ('"' :: (s.toList.flatMap dumpJsonChar) ++ ['"'])

mutual

/-- The `json.dumps` with Python's default separators `", "` and `": "`. -/
def dumpJson : Json → String
  | .jnull => "null"
  | .jbool true => "true"
  | .jbool false => "false"
  | .jnum lx => lx
  | .jstr s => dumpJsonStr s
  | .jarr xs => "[" ++ dumpJsonList xs ++ "]"
  | .jobj fs => "\x7b" ++ dumpJsonFields fs ++ "\x7d"

/-- Serialize array elements. -/
def dumpJsonList : List Json → String
  | [] => ""
  | [x] => dumpJson x
  | x :: y :: xs => dumpJson x ++ ", " ++ dumpJsonList (y :: xs)

/-- Serialize object fields. -/
def dumpJsonFields : List (String × Json) → String
  | [] => ""
  | [(k, v)] => dumpJsonStr k ++ ": " ++ dumpJson v
  | (k, v) :: f :: fs => dumpJsonStr k ++ ": " ++ dumpJson v ++ ", " ++ dumpJsonFields (f :: fs)

end

/-!
## JSON repair and response extraction

Embeds `_attempt_json_repair` (`client.py` lines 407-460) and
`_extract_json_from_response` (lines 260-345) with their helpers
`_is_complete_analysis_response`, `_is_partial_compliance_issue`,
`_wrap_partial_response`, `_normalize_complete_response` and
`_normalize_compliance_issue` (lines 347-405).
-/

/-- The `open_brackets - close_brackets`, clamped at 0 exactly as
`for _ in range(n)` treats a negative `n` (lines 429, 433). -/
def missingBracketsOf (s : Chars) : Nat := countChar '[' s - countChar ']' s

/-- The `open_braces - close_braces`, clamped at 0 (lines 430, 437). -/
def missingBracesOf (s : Chars) : Nat := countChar '\x7b' s - countChar '\x7d' s

/-- The first repair candidate (lines 426-438): the stripped input followed
by one `]` per unmatched `[` and one closing brace per unmatched open brace. -/
def simpleRepair (s : String) : String :=
  String.mk (pyStrip s.toList
    ++ List.replicate (missingBracketsOf s.toList) ']'
    ++ List.replicate (missingBracesOf s.toList) '\x7d')

/-- The second repair candidate (lines 446-452): additionally drops the
trailing commas (`rstrip(',')`) before appending the same closers. -/
def commaRepair (s : String) : String :=
  String.mk (((pyStrip s.toList).reverse.dropWhile (· = ',')).reverse
    ++ List.replicate (missingBracketsOf s.toList) ']'
    ++ List.replicate (missingBracesOf s.toList) '\x7d')

/-- The `_attempt_json_repair` (lines 407-460): each candidate is returned only
after `json.loads` succeeds on it; otherwise `None`. -/
def attemptJsonRepair (s : String) : Option String :=
  if (jsonLoads (simpleRepair s)).isSome then some (simpleRepair s)
  else if (pyStrip s.toList).getLast? = some ',' then
    if (jsonLoads (commaRepair s)).isSome then some (commaRepair s) else none
  else none

/-- The `re.findall(r'\{.*?\}', response_text, re.DOTALL)`: each match runs from
a `\x7b` to the first closing brace after it; matches are non-overlapping,
scanning left to right. -/
def braceChunksAux : Nat → Chars → List Chars
  | 0, _ => []
  | fuel + 1, s =>
    match s.dropWhile (· ≠ '\x7b') with
    | [] => []
    | b :: rest =>
      match rest.findIdx? (· = '\x7d') with
      | none => []
      | some i => (b :: rest.take (i + 1)) :: braceChunksAux fuel (rest.drop (i + 1))

/-- All `\{.*?\}` matches of a text. -/
def braceChunks (s : Chars) : List Chars := braceChunksAux s.length s

/-- The chunk loop of `_extract_json_from_response` (lines 276-297): the
first chunk that `json.loads` accepts, with its parse. -/
def firstParsedChunk : List Chars → Option (String × Json)
  | [] => none
  | c :: rest =>
    let cs := String.mk c
    match jsonLoads cs with
    | some v => some (cs, v)
    | none => firstParsedChunk rest

/-- The `_is_complete_analysis_response` (lines 347-350); a brace chunk always
parses to an object, so only the object case is reachable. -/
def isCompleteAnalysisResponse (v : Json) : Bool :=
  match v with
  | .jobj fs => ["summary", "flagged_clauses", "compliance_issues"].all
      (fun k => (fs.lookup k).isSome)
  | _ => false

/-- The `_is_partial_compliance_issue` (lines 352-355). -/
def isPartialComplianceIssue (v : Json) : Bool :=
  match v with
  | .jobj fs => ["law", "missing_requirements", "recommendations"].all
      (fun k => (fs.lookup k).isSome)
  | _ => false

/-- Python truthiness of a parsed JSON value (`if normalized["compliance_issues"]`).
A numeric lexeme is falsy when it denotes zero; `NaN`/`Infinity` are truthy. -/
def jTruthy : Json → Bool
  | .jnull => false
  | .jbool b => b
  | .jnum lx =>
    lx.toList.any (fun c => ('1' ≤ c ∧ c ≤ '9') ∨ c = 'N' ∨ c = 'I')
  | .jstr s => ¬ s.isEmpty
  | .jarr xs => ¬ xs.isEmpty
  | .jobj fs => ¬ fs.isEmpty

/-- Python `str()` of a parsed JSON scalar, used by
`_normalize_compliance_issue` for non-list, non-string field values
(containers are approximated by their JSON serialization). -/
def pyStrOfJson : Json → String
  | .jnull => "None"
  | .jbool true => "True"
  | .jbool false => "False"
  | .jnum lx => lx
  | .jstr s => s
  | v => dumpJson v

/-- Field normalization of `_normalize_compliance_issue` (lines 386-403):
a string becomes a singleton list (or `[]` when empty), a list is kept, any
other value becomes `[str(value)]`. -/
def normalizeListField (v : Json) : Json :=
  match v with
  | .jstr s => if s.isEmpty then .jarr [] else .jarr [.jstr s]
  | .jarr xs => .jarr xs
  | other => .jarr [.jstr (pyStrOfJson other)]

/-- The `_normalize_compliance_issue` (lines 381-405).  On a dict the two list
fields are normalized in place; a list passes through unchanged unless it
contains one of the key names, in which case Python's string indexing raises
`TypeError`; scalars have no `.copy` and raise `AttributeError`. -/
def normalizeComplianceIssue (v : Json) : Except PyErr Json :=
  match v with
  | .jobj fs =>
    .ok (.jobj (fs.map (fun kv =>
      if kv.1 = "missing_requirements" ∨ kv.1 = "recommendations" then
        (kv.1, normalizeListField kv.2)
      else kv)))
  | .jarr xs =>
    if xs.any (fun x =>
        match x with
        | .jstr s => s = "missing_requirements" ∨ s = "recommendations"
        | _ => false) then
      .error .typeError
    else .ok (.jarr xs)
  | _ => .error .attributeError

/-- The per-issue loop of `_normalize_complete_response` (lines 373-377). -/
def normalizeIssueList : List Json → Except PyErr (List Json)
  | [] => .ok []
  | x :: rest =>
    match normalizeComplianceIssue x with
    | .error e => .error e
    | .ok x' =>
      match normalizeIssueList rest with
      | .error e => .error e
      | .ok rest' => .ok (x' :: rest')

/-- The `_normalize_complete_response` (lines 368-379): normalizes the
`compliance_issues` list when present and truthy.  Iterating a non-list
truthy value raises (`AttributeError` for the string/dict element case,
`TypeError` for non-iterables). -/
def normalizeCompleteResponse (v : Json) : Except PyErr Json :=
  match v with
  | .jobj fs =>
    match fs.lookup "compliance_issues" with
    | some ci =>
      if jTruthy ci then
        match ci with
        | .jarr xs =>
          match normalizeIssueList xs with
          | .error e => .error e
          | .ok xs' =>
            .ok (.jobj (fs.map (fun kv =>
              if kv.1 = "compliance_issues" then (kv.1, .jarr xs') else kv)))
        | .jstr _ => .error .attributeError
        | .jobj _ => .error .attributeError
        | _ => .error .typeError
      else .ok (.jobj fs)
    | none => .ok (.jobj fs)
  | _ => .error .attributeError

/-- The `_wrap_partial_response` (lines 357-366): normalize the partial issue and
wrap it in the complete structure, with the f-string summary built from the
`law` field (default `'compliance requirements'`). -/
def wrapPartialResponse (v : Json) : Except PyErr Json :=
  match normalizeComplianceIssue v with
  | .error e => .error e
  | .ok ni =>
    let lawText :=
      match v with
      | .jobj fs =>
        match fs.lookup "law" with
        | some lv => pyStrOfJson lv
        | none => "compliance requirements"
      | _ => "compliance requirements"
    .ok (.jobj
      [("summary", .jstr ("Contract analysis found issues with " ++ lawText)),
       ("flagged_clauses", .jarr []),
       ("compliance_issues", .jarr [ni])])

/-- The fallback structure of `_extract_json_from_response` (lines 340-344). -/
def fallbackJson : Json :=
  .jobj [("summary", .jstr "Error: Could not parse AI response"),
         ("flagged_clauses", .jarr []),
         ("compliance_issues", .jarr [])]

/-- The `json.dumps(fallback)` (line 345). -/
def fallbackString : String := dumpJson fallbackJson

/-- The line-collection loop of `_extract_json_from_response`
(lines 300-317): starting at the first line whose stripped form begins with
an opening brace, lines are collected while a running brace count stays
nonzero. -/
def jsonLinesAux : List Chars → Bool → Int → List Chars
  | [], _, _ => []
  | line :: rest, inJson, braceCount =>
    let stripped := pyStrip line
    if ¬ inJson then
      if stripped.head? = some '\x7b' then
        line :: jsonLinesAux rest true 1
      else jsonLinesAux rest false braceCount
    else
      let bc := braceCount + (countChar '\x7b' stripped : Int) - (countChar '\x7d' stripped : Int)
      line :: (if bc = 0 then [] else jsonLinesAux rest true bc)

/-- The `json_lines` list for a raw response (`response_text.strip().split('\n')`
feeding the collection loop). -/
def jsonLinesOf (resp : String) : List Chars :=
  jsonLinesAux (splitNl (pyStrip resp.toList)) false 0

/-- The `_extract_json_from_response` (lines 260-345). -/
def extractJsonFromResponse (resp : String) : Except PyErr String :=
  match firstParsedChunk (braceChunks resp.toList) with
  | some (chunkStr, v) =>
    if isCompleteAnalysisResponse v then
      match normalizeCompleteResponse v with
      | .error e => .error e
      | .ok v' => .ok (dumpJson v')
    else if isPartialComplianceIssue v then
      match wrapPartialResponse v with
      | .error e => .error e
      | .ok v' => .ok (dumpJson v')
    else .ok chunkStr
  | none =>
    let jls := jsonLinesOf resp
    if jls.isEmpty then .ok fallbackString
    else
      let potentialJson := String.mk (joinNl jls)
      match jsonLoads potentialJson with
      | some v =>
        if isPartialComplianceIssue v then
          match wrapPartialResponse v with
          | .error e => .error e
          | .ok v' => .ok (dumpJson v')
        else .ok potentialJson
      | none =>
        match attemptJsonRepair potentialJson with
        | some r => .ok r
        | none => .ok fallbackString

/-!
## A regular-expression fragment for the termination rules

The patterns of `_analyze_termination_provisions`
(`ContractAnalyzerService.py` lines 1668-1718) all have the shape
`atom₁.*atom₂.*…*atomₖ` where an atom is a literal word, an alternation of
literal words, or `\d+`, and `.` does not cross a newline (no `re.DOTALL` is
passed).  A pattern is embedded as a `List PatAtom` with the `.*` gaps
implicit between consecutive atoms.  `IGNORECASE` matching is modelled by
matching the lowercase patterns against the lowercased text (the positions
agree with the original text).
-/

/-- An atom of the regex fragment. -/
inductive PatAtom where
  | lit (w : String)
  | alts (ws : List String)
  | digits
deriving Repr, DecidableEq

/-- Length of the (greedy) atom match anchored at offset `j` of `seg`;
alternatives are tried in alternation order, `\d+` takes the whole digit
run. -/
def atomMatchLenAt (a : PatAtom) (seg : Chars) (j : Nat) : Option Nat :=
  match a with
  | .lit w => if w.toList.isPrefixOf (seg.drop j) then some w.toList.length else none
  | .alts ws => ws.findSome? (fun w =>
      if w.toList.isPrefixOf (seg.drop j) then some w.toList.length else none)
  | .digits =>
    match seg.drop j with
    | c :: _ => if c.isDigit then some ((seg.drop j).takeWhile Char.isDigit).length else none
    | [] => none

/-- Earliest occurrence of atom `a` in `seg` at an offset at least `lo`:
the least such offset together with the matched length. -/
def earliestAtomFrom (a : PatAtom) (seg : Chars) (lo : Nat) : Option (Nat × Nat) :=
  (List.range (seg.length + 1)).findSome? (fun j =>
    if lo ≤ j then (atomMatchLenAt a seg j).map (fun l => (j, l)) else none)

/-- Maximal end within `seg` of the chain `p` (atoms separated by `.*`) whose
atoms all start at offset `lo` or later: middle atoms are placed earliest
(which does not constrain the end), the last atom rightmost — the greedy
backtracking semantics of the Python engine for these patterns. -/
def greedyTailEnd : List PatAtom → Chars → Nat → Option Nat
  | [], _, lo => some lo
  | [a], seg, lo =>
    ((List.range (seg.length + 1)).filterMap (fun j =>
      if lo ≤ j then (atomMatchLenAt a seg j).map (fun l => j + l) else none)).max?
  | a :: b :: rest, seg, lo =>
    match earliestAtomFrom a seg lo with
    | none => none
    | some (j, l) => greedyTailEnd (b :: rest) seg (j + l)

/-- Match of pattern `p` anchored at offset 0 of the line segment `seg`
(first atom at 0, greedy overall end). -/
def anchoredMatchEnd (p : List PatAtom) (seg : Chars) : Option Nat :=
  match p with
  | [] => some 0
  | a :: rest =>
    match atomMatchLenAt a seg 0 with
    | none => none
    | some l => greedyTailEnd rest seg l

/-- Leftmost match of `p` in the suffix `s` whose first character has
absolute position `pos`; a candidate anchor sees only its own line (`.` does
not cross newlines).  Returns absolute `(start, end)`. -/
def findLeftmostMatch (p : List PatAtom) : Chars → Nat → Option (Nat × Nat)
  | [], _ => none
  | s@(_ :: rest), pos =>
    match anchoredMatchEnd p (s.takeWhile (· ≠ '\n')) with
    | some e => some (pos, pos + e)
    | none => findLeftmostMatch p rest (pos + 1)

/-- The `re.finditer`: successive non-overlapping leftmost matches, each search
resuming at the previous match end. -/
def finditerPat (p : List PatAtom) : Nat → Chars → Nat → List (Nat × Nat)
  | 0, _, _ => []
  | fuel + 1, s, pos =>
    match findLeftmostMatch p s pos with
    | none => []
    | some (st, en) =>
      (st, en) :: finditerPat p fuel (s.drop (en - pos + (if en = st then 1 else 0)))
        (en + (if en = st then 1 else 0))

/-- All matches of `p` in `s`. -/
def finditerAll (p : List PatAtom) (s : Chars) : List (Nat × Nat) :=
  finditerPat p (s.length + 1) s 0

/-- Collapse whitespace runs to single spaces (`re.sub(r'\s+', ' ', s)`),
fuel-bounded (every step consumes at least one character). -/
def collapseWs (fuel : Nat) (s : Chars) : Chars :=
  match fuel, s with
  | 0, s => s
  | _ + 1, [] => []
  | fuel + 1, c :: rest =>
    if pyIsSpace c then ' ' :: collapseWs fuel (rest.dropWhile pyIsSpace)
    else c :: collapseWs fuel rest

/-- The `_extract_clause_context` (lines 1902-1919): a window of 150 characters
on each side of the match, whitespace collapsed, stripped, truncated to 200
characters with an ellipsis. -/
def extractClauseContext (text : Chars) (startPos endPos : Nat) : Chars :=
  let startCtx := startPos - 150
  let endCtx := min text.length (endPos + 150)
  let context := (text.drop startCtx).take (endCtx - startCtx)
  let context := pyStrip (collapseWs context.length context)
  if context.length > 200 then context.take 200 ++ "...".toList else context

/-!
## Termination-provision analysis — `_analyze_termination_provisions`

Lines 1668-1718 of `ContractAnalyzerService.py`.  The second loop's first
pattern `(?:notice|termination).*(?:\d+.*(?:week|month|day))` has no capture
groups, so `int(match.group(1))` raises `IndexError` as soon as that pattern
matches anywhere; the embedding returns `Except.error .indexError` there.
-/

/-- The `termination_patterns` (lines 1672-1677). -/
def terminationPatterns : List (List PatAtom) :=
  [[.lit "terminate", .lit "without", .lit "notice"],
   [.lit "dismiss", .lit "immediately"],
   [.lit "termination", .lit "effective", .lit "immediately"],
   [.lit "end", .lit "employment", .lit "without", .lit "notice"]]

/-- The issue text of the termination flag (line 1686). -/
def terminationIssueText : String :=
  "Immediate termination without notice violates Employment Act 1955 Section 12 minimum notice requirements (4 weeks for employees with >2 years service, 2 weeks for <2 years)"

/-- Inner match loop of the first pass (lines 1680-1689): the first match
whose context mentions neither misconduct nor gross negligence produces the
high-severity flag, then `break`. -/
def firstCleanTermClause (text : Chars) : List (Nat × Nat) → List PyClause
  | [] => []
  | (st, en) :: rest =>
    let context := extractClauseContext text st en
    let contextLower := pyLower context
    if ¬ hasSubstr "misconduct".toList contextLower = true ∧
       ¬ hasSubstr "gross negligence".toList contextLower = true then
      [⟨String.mk context, terminationIssueText, "high"⟩]
    else firstCleanTermClause text rest

/-- First loop of `_analyze_termination_provisions` (lines 1679-1689): one
potential flag per pattern. -/
def terminationFirstPass (text : String) : List PyClause :=
  let cs := text.toList
  let low := pyLower cs
  terminationPatterns.foldl
    (fun clauses p => clauses ++ firstCleanTermClause cs (finditerAll p low))
    []

/-- The `notice_patterns[0]` (line 1693): `(?:notice|termination).*(?:\d+.*(?:week|month|day))`
— no capture groups. -/
def noticePattern1 : List PatAtom :=
  [.alts ["notice", "termination"], .digits, .alts ["week", "month", "day"]]

/-- The `notice_patterns[1]` (line 1694): `(\d+).*?(day|week|month).*?(?:notice|termination)`. -/
def noticePattern2 : List PatAtom :=
  [.digits, .alts ["day", "week", "month"], .alts ["notice", "termination"]]

/-- Numeric value of a digit run (Python `int`). -/
def natOfDigits (ds : Chars) : Nat :=
  ds.foldl (fun acc c => acc * 10 + (c.toNat - '0'.toNat)) 0

/-- Group 2 of `notice_patterns[1]`: the earliest unit word after the digit
run (lazy `.*?`, alternatives in order `day|week|month`). -/
def findUnitAfter (low : Chars) (fromPos : Nat) : Option String :=
  (List.range (low.length + 1)).findSome? (fun j =>
    if fromPos ≤ j then
      (["day", "week", "month"].findSome? (fun w =>
        if w.toList.isPrefixOf (low.drop j) then some w else none))
    else none)

/-- The second-pattern loop (lines 1697-1718) specialized to
`notice_patterns[1]`: the first match whose notice period converts to fewer
than 14 days appends a medium flag and breaks. -/
def noticeP2Clauses (text low : Chars) : List (Nat × Nat) → List PyClause
  | [] => []
  | (st, en) :: rest =>
    let run := (low.drop st).takeWhile Char.isDigit
    let noticeNum := natOfDigits run
    let unit := (findUnitAfter low (st + run.length)).getD "day"
    let noticeDays :=
      if unit = "week" then noticeNum * 7
      else if unit = "month" then noticeNum * 30
      else noticeNum
    if noticeDays < 14 then
      let context := extractClauseContext text st en
      [⟨String.mk context,
        "Notice period of " ++ toString noticeNum ++ " " ++ unit ++
          (if noticeNum > 1 then "s" else "") ++
          " may be insufficient under Employment Act 1955 Section 12 (minimum 2-4 weeks required)",
        "medium"⟩]
    else noticeP2Clauses text low rest

/-- The `_analyze_termination_provisions` (lines 1668-1718) as a whole, with the
shared `flagged_clauses` list threaded through.  The first notice pattern has
no capture groups, so any match of it raises `IndexError` at
`int(match.group(1))` (line 1700) and the whole analysis aborts. -/
def analyzeTerminationProvisionsE (text : String) : Except PyErr (List PyClause) :=
  let clauses := terminationFirstPass text
  let low := pyLower text.toList
  if ¬ (finditerAll noticePattern1 low).isEmpty then .error .indexError
  else .ok (clauses ++ noticeP2Clauses text.toList low (finditerAll noticePattern2 low))

/-!
## Text Normalizer — `_preprocess_contract_text`

Embeds the later (overriding) definition of `_preprocess_contract_text`
(`ContractAnalyzerService.py` lines 867-939), step by step.  Each
`re.sub`-based step becomes a fuel-bounded scanner over the character list;
the fuel is the input length and every scanner step consumes at least one
input character, so the fuel never runs out.  Documented approximations:
in steps 5-6 a leading or trailing `\s*` of a line-anchored pattern is kept
within its line (Python's `\s` could additionally swallow adjacent blank
lines); `\w` and the case predicates are read over ASCII.
-/

/-- Step 1, `re.sub(r'^#{1,6}\s+.*$', '', text, flags=re.MULTILINE)`: at a
line start, 1-6 `#` followed by at least one whitespace character consume the
whitespace run (which may cross newlines) and the rest of that line. -/
def headerSub (fuel : Nat) (s : Chars) (atLineStart : Bool) : Chars :=
  match fuel, s with
  | 0, s => s
  | _ + 1, [] => []
  | fuel + 1, c :: rest =>
    if atLineStart ∧ c = '#' then
      let hs := (c :: rest).takeWhile (· = '#')
      let afterH := (c :: rest).drop hs.length
      let ws := afterH.takeWhile pyIsSpace
      if hs.length ≤ 6 ∧ 1 ≤ ws.length then
        let afterWs := afterH.drop ws.length
        let lineRest := afterWs.takeWhile (· ≠ '\n')
        headerSub fuel (afterWs.drop lineRest.length) false
      else c :: headerSub fuel rest (c = '\n')
    else c :: headerSub fuel rest (c = '\n')

/-- Step 2 helper: position of the earliest closing delimiter on the current
line (`.*?` of the emphasis patterns never crosses a newline). -/
def pairFindClose (d : Chars) : Chars → Option Nat
  | [] => none
  | t@(c :: rest) =>
    if d.isPrefixOf t then some 0
    else if c = '\n' then none
    else (pairFindClose d rest).map (· + 1)

/-- Step 2, `re.sub(d + r'(.*?)' + d, r'\1', text)` for a delimiter `d`
(`**`, `*`, `` ` ``): a delimited span on one line is replaced by its inner
text; the replacement is not rescanned. -/
def pairSub (fuel : Nat) (d : Chars) (s : Chars) : Chars :=
  match fuel, s with
  | 0, s => s
  | _ + 1, [] => []
  | fuel + 1, c :: rest =>
    let t := c :: rest
    if d.isPrefixOf t then
      match pairFindClose d (t.drop d.length) with
      | some i =>
        let inner := (t.drop d.length).take i
        inner ++ pairSub fuel d ((t.drop d.length).drop (i + d.length))
      | none => c :: pairSub fuel d rest
    else c :: pairSub fuel d rest

/-- The match attempt of step 3a at one position: `\s*[-*+]\s+`, returning
the remainder after the match. -/
def bulletMatch (t : Chars) : Option Chars :=
  let ws1 := t.takeWhile pyIsSpace
  match t.drop ws1.length with
  | b :: after1 =>
    if b = '-' ∨ b = '*' ∨ b = '+' then
      let ws2 := after1.takeWhile pyIsSpace
      if 1 ≤ ws2.length then some (after1.drop ws2.length) else none
    else none
  | [] => none

/-- Step 3a, `re.sub(r'^\s*[-*+]\s+', '', text, flags=re.MULTILINE)`. -/
def bulletSub (fuel : Nat) (s : Chars) (atLineStart : Bool) : Chars :=
  match fuel, s with
  | 0, s => s
  | _ + 1, [] => []
  | fuel + 1, c :: rest =>
    if atLineStart then
      match bulletMatch (c :: rest) with
      | some remainder => bulletSub fuel remainder false
      | none => c :: bulletSub fuel rest (c = '\n')
    else c :: bulletSub fuel rest (c = '\n')

/-- The match attempt of step 3b at one position:
`\s*\d+\.\s+(?=[A-Z])`, returning the remainder after the match (the
looked-ahead uppercase letter is not consumed). -/
def numberedMatch (t : Chars) : Option Chars :=
  let ws1 := t.takeWhile pyIsSpace
  let afterWs := t.drop ws1.length
  let ds := afterWs.takeWhile Char.isDigit
  if 1 ≤ ds.length then
    match afterWs.drop ds.length with
    | '.' :: afterDot =>
      let ws2 := afterDot.takeWhile pyIsSpace
      if 1 ≤ ws2.length then
        match afterDot.drop ws2.length with
        | u :: _ => if 'A' ≤ u ∧ u ≤ 'Z' then some (afterDot.drop ws2.length) else none
        | [] => none
      else none
    | _ => none
  else none

/-- Step 3b, `re.sub(r'^\s*\d+\.\s+(?=[A-Z])', '', text, flags=re.MULTILINE)`. -/
def numberedSub (fuel : Nat) (s : Chars) (atLineStart : Bool) : Chars :=
  match fuel, s with
  | 0, s => s
  | _ + 1, [] => []
  | fuel + 1, c :: rest =>
    if atLineStart then
      match numberedMatch (c :: rest) with
      | some remainder => numberedSub fuel remainder false
      | none => c :: numberedSub fuel rest (c = '\n')
    else c :: numberedSub fuel rest (c = '\n')

/-- Step 4, `re.sub(r'<[^>]+>', '', text)`: `[^>]` matches any character but
`>`, newlines included. -/
def htmlSub (fuel : Nat) (s : Chars) : Chars :=
  match fuel, s with
  | 0, s => s
  | _ + 1, [] => []
  | fuel + 1, c :: rest =>
    if c = '<' then
      match rest.findIdx? (· = '>') with
      | some i => if 1 ≤ i then htmlSub fuel (rest.drop (i + 1)) else c :: htmlSub fuel rest
      | none => c :: htmlSub fuel rest
    else c :: htmlSub fuel rest

/-- Keyword families of the step-5 line patterns (lines 888-897). -/
def metaColonKeywords : List String :=
  ["contract analysis", "legal review", "summary", "overview", "analysis", "review",
   "note", "disclaimer", "warning", "important",
   "created by", "generated by", "analyzed by", "document", "title",
   "version", "date", "status", "author"]

/-- A lowercased line starts with `kw ++ ":"` for one of the keywords. -/
def startsKwColon (lower : Chars) (kws : List String) : Bool :=
  kws.any (fun k => (k ++ ":").toList.isPrefixOf lower)

/-- The `^(page \d+|header|footer):.*$` on a lowercased line. -/
def pageHeaderFooterColon (lower : Chars) : Bool :=
  ("header:".toList.isPrefixOf lower) || ("footer:".toList.isPrefixOf lower) ||
  (("page ".toList.isPrefixOf lower) ∧
    (let after := lower.drop 5
     let ds := after.takeWhile Char.isDigit
     1 ≤ ds.length ∧ (after.drop ds.length).head? = some ':'))

/-- The `^\s*(summary|conclusion|recommendations?):\s*$` on a line. -/
def sectionHeaderOnly (lower : Chars) : Bool :=
  let stripped := pyStrip lower
  stripped = "summary:".toList ∨ stripped = "conclusion:".toList ∨
  stripped = "recommendation:".toList ∨ stripped = "recommendations:".toList

/-- The `^\s*-{3,}\s*$` / `^\s*={3,}\s*$` on a line. -/
def dividerOnly (divider : Char) (l : Chars) : Bool :=
  let stripped := pyStrip l
  3 ≤ stripped.length ∧ stripped.all (· = divider)

/-- Step 5 applied to a single line: the eight `non_contract_patterns`
(lines 888-897), all case-insensitive and line-anchored; a matching line is
blanked. -/
def nonContractLineSub (l : Chars) : Chars :=
  let lower := pyLower l
  if startsKwColon lower metaColonKeywords ∨ pageHeaderFooterColon lower ∨
     sectionHeaderOnly lower ∨ dividerOnly '-' l ∨ dividerOnly '=' l then []
  else l

/-- Apply a per-line transformation (a `re.MULTILINE` substitution whose
matches stay within one line). -/
def perLine (f : Chars → Chars) (s : Chars) : Chars :=
  joinNl ((splitNl s).map f)

/-- Step 6a, `re.sub(r'\n\s*\n\s*\n+', '\n\n', text)`: a whitespace run that
starts with a newline and contains at least three newlines is replaced, up to
its last newline, by a double newline. -/
def tripleBlankSub (fuel : Nat) (s : Chars) : Chars :=
  match fuel, s with
  | 0, s => s
  | _ + 1, [] => []
  | fuel + 1, c :: rest =>
    let t := c :: rest
    if c = '\n' then
      let run := t.takeWhile pyIsSpace
      let tailWs := run.reverse.takeWhile (fun x => ¬ x = '\n')
      let consumed := run.length - tailWs.length
      if 3 ≤ countChar '\n' run then
        '\n' :: '\n' :: tripleBlankSub fuel (t.drop consumed)
      else c :: tripleBlankSub fuel rest
    else c :: tripleBlankSub fuel rest

/-- Step 6b, `re.sub(r'[ \t]+', ' ', text)`. -/
def spaceTabSub (fuel : Nat) (s : Chars) : Chars :=
  match fuel, s with
  | 0, s => s
  | _ + 1, [] => []
  | fuel + 1, c :: rest =>
    if c = ' ' ∨ c = '\t' then
      ' ' :: spaceTabSub fuel (rest.dropWhile (fun x => x = ' ' ∨ x = '\t'))
    else c :: spaceTabSub fuel rest

/-- Step 6c, `re.sub(r'^\s+', '', text, flags=re.MULTILINE)`: a maximal
whitespace run at a line start (newlines included) is deleted. -/
def leadingWsSub (fuel : Nat) (s : Chars) (atLineStart : Bool) : Chars :=
  match fuel, s with
  | 0, s => s
  | _ + 1, [] => []
  | fuel + 1, c :: rest =>
    let t := c :: rest
    if atLineStart ∧ pyIsSpace c then
      let run := t.takeWhile pyIsSpace
      leadingWsSub fuel (t.drop run.length) (run.getLast? = some '\n')
    else c :: leadingWsSub fuel rest (c = '\n')

/-- Python `\w` over ASCII. -/
def isWordChar (c : Char) : Bool := c.isAlphanum || c = '_'

/-- Python `str.isupper()` over ASCII: at least one letter and no lowercase
letter. -/
def pyIsUpper (l : Chars) : Bool :=
  l.any Char.isAlpha && l.all (fun c => ¬ c.isLower)

/-- The `re.match(r'^(page|section|article|chapter)\s*\d+\s*$', line, re.IGNORECASE)`. -/
def pageSectionNumberLine (l : Chars) : Bool :=
  let lower := pyLower l
  ["page", "section", "article", "chapter"].any (fun kw =>
    kw.toList.isPrefixOf lower ∧
    (let after := (lower.drop kw.length).dropWhile pyIsSpace
     let ds := after.takeWhile Char.isDigit
     1 ≤ ds.length ∧ ((after.drop ds.length).dropWhile pyIsSpace).isEmpty))

/-- The skip conditions of step 7 (lines 918-924), on the stripped line. -/
def isArtifactLine (l : Chars) : Bool :=
  l.length < 10 ∨
  (pyIsUpper l ∧ pyWordCount l < 5) ∨
  l.all (fun c => ¬ isWordChar c) ∨
  pageSectionNumberLine l ∨
  countChar '_' l > l.length / 3 ∨
  countChar '-' l > l.length / 3

/-- Step 7 for one line: blank lines are preserved as paragraph breaks,
artifact lines are dropped, the rest are kept stripped (lines 908-928). -/
def meaningfulLine (l : Chars) : Option Chars :=
  let stripped := pyStrip l
  if stripped.isEmpty then some []
  else if isArtifactLine stripped then none
  else some stripped

/-- Step 7: rebuild the text from the meaningful lines. -/
def meaningfulLinesFilter (s : Chars) : Chars :=
  joinNl ((splitNl s).filterMap meaningfulLine)

/-- Step 8b, `re.sub(r'\n{3,}', '\n\n', text)`. -/
def tripleNlSub (fuel : Nat) (s : Chars) : Chars :=
  match fuel, s with
  | 0, s => s
  | _ + 1, [] => []
  | fuel + 1, c :: rest =>
    if c = '\n' then
      let run := (c :: rest).takeWhile (· = '\n')
      if 3 ≤ run.length then '\n' :: '\n' :: tripleNlSub fuel ((c :: rest).drop run.length)
      else c :: tripleNlSub fuel rest
    else c :: tripleNlSub fuel rest

/-- The `_preprocess_contract_text` (lines 867-939), all steps composed. -/
def preprocessChars (s : Chars) : Chars :=
  let t := headerSub s.length s true
  let t := pairSub t.length "**".toList t
  let t := pairSub t.length "*".toList t
  let t := pairSub t.length "`".toList t
  let t := bulletSub t.length t true
  let t := numberedSub t.length t true
  let t := htmlSub t.length t
  let t := perLine nonContractLineSub t
  let t := tripleBlankSub t.length t
  let t := spaceTabSub t.length t
  let t := leadingWsSub t.length t true
  let t := meaningfulLinesFilter t
  let t := pyStrip t
  tripleNlSub t.length t

/-- The `_preprocess_contract_text` at the `String` level. -/
def preprocessContractText (s : String) : String :=
  String.mk (preprocessChars s.toList)

/-!
## Helper lemmas
-/

theorem foldl_add_eq_sum {α : Type} (f : α → Int) (l : List α) (a : Int) :
    l.foldl (fun acc x => acc + f x) a = a + (l.map f).sum := by
  induction l generalizing a with
  | nil => simp
  | cons x xs ih => simp [List.foldl_cons, ih, add_assoc]

theorem riskDeductions_eq_sum (issues : List PyIssue) (clauses : List PyClause) :
    riskDeductions issues clauses =
      (issues.map issueRiskDeduction).sum + (clauses.map clauseRiskDeduction).sum := by
  unfold riskDeductions
  rw [foldl_add_eq_sum, foldl_add_eq_sum]
  ring

theorem clauseRiskDeduction_pos (c : PyClause) : 0 < clauseRiskDeduction c := by
  unfold clauseRiskDeduction
  split_ifs <;> norm_num

/-- Claim `C2` — the risk scorer computes `overall_score` as 100 minus the sum of
the per-issue deductions (CCPA ladder 40/30/20/12 over thresholds 5/3/2,
other laws 25/15/8 over thresholds 4/2) and the per-clause deductions
(high 20, medium 12, otherwise 5), clamped into the integer range
`[0, 100]`. -/
theorem c2_risk_score_formula (issues : List PyIssue) (clauses : List PyClause) :
    calculateOverallScore issues clauses =
      max 0 (min 100 (100 -
        ((issues.map (fun i =>
            if i.law = "CCPA_US" then
              if 5 ≤ i.missing_requirements.length then (40 : Int)
              else if 3 ≤ i.missing_requirements.length then 30
              else if 2 ≤ i.missing_requirements.length then 20
              else 12
            else
              if 4 ≤ i.missing_requirements.length then (25 : Int)
              else if 2 ≤ i.missing_requirements.length then 15
              else 8)).sum +
         (clauses.map (fun c =>
            if c.severity = "high" then (20 : Int)
            else if c.severity = "medium" then 12
            else 5)).sum))) ∧
    0 ≤ calculateOverallScore issues clauses ∧
    calculateOverallScore issues clauses ≤ 100 := by
  refine ⟨?_, ?_, ?_⟩
  · unfold calculateOverallScore
    rw [riskDeductions_eq_sum]
    rfl
  · exact le_max_left 0 _
  · unfold calculateOverallScore
    exact max_le (by norm_num) (min_le_left 100 _)

/-- Claim `C5` — holding the compliance issues fixed, extending the flagged-clause
list by a high-severity clause never increases the overall score. -/
theorem c5_high_clause_monotone (issues : List PyIssue) (clauses : List PyClause)
    (c : PyClause) (_hc : c.severity = "high") :
    calculateOverallScore issues (clauses ++ [c]) ≤
      calculateOverallScore issues clauses := by
  unfold calculateOverallScore
  rw [riskDeductions_eq_sum, riskDeductions_eq_sum]
  have hpos : 0 < clauseRiskDeduction c := clauseRiskDeduction_pos c
  have : (clauses.map clauseRiskDeduction).sum ≤
      ((clauses ++ [c]).map clauseRiskDeduction).sum := by
    rw [List.map_append, List.sum_append]
    simp only [List.map_cons, List.map_nil, List.sum_cons, List.sum_nil, add_zero]
    omega
  apply max_le_max (le_refl 0)
  apply min_le_min (le_refl 100)
  omega

/-- Witness for `C5` at a concrete high-severity clause. -/
theorem c5_high_clause_monotone_witness :
    calculateOverallScore [] [⟨"clause text", "issue text", "high"⟩] ≤
      calculateOverallScore [] [] :=
  c5_high_clause_monotone [] [] ⟨"clause text", "issue text", "high"⟩ rfl

/-- Claim `C10` — `_attempt_json_repair` is total and only ever returns a string
that it has successfully re-parsed; every `some` result parses as JSON. -/
theorem c10_repair_verified (s r : String) (h : attemptJsonRepair s = some r) :
    (jsonLoads r).isSome = true := by
  unfold attemptJsonRepair at h
  by_cases h1 : (jsonLoads (simpleRepair s)).isSome = true
  · rw [if_pos h1] at h
    cases h
    exact h1
  · rw [if_neg h1] at h
    by_cases h2 : (pyStrip s.toList).getLast? = some ','
    · rw [if_pos h2] at h
      by_cases h3 : (jsonLoads (commaRepair s)).isSome = true
      · rw [if_pos h3] at h
        cases h
        exact h3
      · rw [if_neg h3] at h
        cases h
    · rw [if_neg h2] at h
      cases h

/-- Witness for `C10`: the truncated object is repaired to a string that
parses. -/
theorem c10_repair_verified_witness :
    (jsonLoads "\x7b\"a\": []\x7d").isSome = true :=
  c10_repair_verified "\x7b\"a\": [" "\x7b\"a\": []\x7d" (by rfl)

/-- Claim `C6` (counterexample) — the claim says the post-filter rejects every
issue whose clause text is under 20 characters or whose issue text lacks a
legal-reference token, for all severities including high; this high-severity
issue has a 1-character clause text and a token-free issue text and is
nevertheless accepted. -/
theorem c6_counterexample :
    isSubstantiveLegalIssue ⟨"x", "vague concern", "high"⟩ = true ∧
    ("x" : String).toList.length < 20 ∧
    legalSignificanceTokens.any
      (fun tok => hasSubstr tok.toList (pyLower ("vague concern" : String).toList)) = false := by
  refine ⟨rfl, by decide, by decide⟩

/-- Claim `C6` (amended) — `_is_substantive_legal_issue` always accepts
high-severity issues; an issue of any other severity is rejected whenever its
issue text contains no legal-significance token, its clause text has at most
30 characters, and (for medium severity) the combined issue and clause text
mentions no legal-concept term. -/
theorem c6_amended_filter (issue : PyClause) :
    (issue.severity = "high" → isSubstantiveLegalIssue issue = true) ∧
    (issue.severity ≠ "high" →
     legalSignificanceTokens.any
       (fun tok => hasSubstr tok.toList (pyLower issue.issue.toList)) = false →
     issue.clause_text.toList.length ≤ 30 →
     (issue.severity = "medium" →
       legalConcepts.any (fun con =>
         hasSubstr con.toList
           (pyLower (issue.issue.toList ++ ' ' :: issue.clause_text.toList))) = false) →
     isSubstantiveLegalIssue issue = false) := by
  constructor
  · intro hhigh
    unfold isSubstantiveLegalIssue
    rw [if_pos hhigh]
  · intro hhigh hsig hlen hmed
    simp only [isSubstantiveLegalIssue]
    rw [if_neg hhigh]
    by_cases hgen : (genericIndicators.any
        (fun ind => hasSubstr ind.toList (pyLower issue.issue.toList))) = true
    · rw [if_pos hgen]
    · rw [if_neg hgen, if_neg (by rw [hsig]; exact Bool.false_ne_true),
        if_neg (fun hc : _ ∧ _ => by omega)]
      by_cases hm : issue.severity = "medium"
      · rw [if_pos hm]
        exact hmed hm
      · rw [if_neg hm]

/-- Witness for `C6` (amended): a concrete low-severity issue with bland
wording is rejected. -/
theorem c6_amended_filter_witness :
    isSubstantiveLegalIssue ⟨"", "nothing of note here", "low"⟩ = false :=
  (c6_amended_filter ⟨"", "nothing of note here", "low"⟩).2
    (by decide) (by decide) (by decide) (by decide)

theorem cleanOne_law_mem {j : String} {i i' : PyIssue}
    (h : cleanOneComplianceIssue j i = some i') : i'.law ∈ jurisdictionLaws j := by
  simp only [cleanOneComplianceIssue] at h
  split at h
  · exact absurd h (by simp)
  · split at h
    · exact absurd h (by simp)
    · split at h
      · exact absurd h (by simp)
      · split at h
        next hmem =>
          cases h
          exact hmem
        next hmem => exact absurd h (by simp)

theorem validateOne_law_mem {j : String} {i i' : PyIssue}
    (h : validateOneComplianceIssue j i = some i') : i'.law ∈ jurisdictionLaws j := by
  simp only [validateOneComplianceIssue] at h
  split at h
  next hmem => exact absurd h (by simp)
  next hmem =>
    split at h
    · exact absurd h (by simp)
    · split at h
      · exact absurd h (by simp)
      · split at h
        · cases h
          exact not_not.mp hmem
        · exact absurd h (by simp)

/-- Claim `C1` — every compliance issue surviving the response-cleaning boundary
(`_clean_ai_response`) or the validation guard (`_validate_compliance_issues`)
for a caller jurisdiction in `{MY, SG, EU, US}` carries a law belonging to
that jurisdiction's fixed applicable-law set; in particular
`EMPLOYMENT_ACT_MY` never survives outside `MY`, whatever the incoming
(possibly malformed) issue list was. -/
theorem c1_law_jurisdiction_invariant (issues : List PyIssue) (j : String)
    (hj : j ∈ (["MY", "SG", "EU", "US"] : List String)) :
    (∀ i' ∈ cleanComplianceIssues issues j, i'.law ∈ jurisdictionLaws j) ∧
    (∀ i' ∈ validateComplianceIssues issues j, i'.law ∈ jurisdictionLaws j) ∧
    (j ≠ "MY" → ∀ i' ∈ cleanComplianceIssues issues j, i'.law ≠ "EMPLOYMENT_ACT_MY") := by
  have hclean : ∀ i' ∈ cleanComplianceIssues issues j, i'.law ∈ jurisdictionLaws j := by
    intro i' hm
    obtain ⟨i, _, hcl⟩ := List.mem_filterMap.mp hm
    exact cleanOne_law_mem hcl
  refine ⟨hclean, ?_, ?_⟩
  · intro i' hm
    obtain ⟨i, _, hvl⟩ := List.mem_filterMap.mp hm
    exact validateOne_law_mem hvl
  · intro hne i' hm
    have hmem := hclean i' hm
    simp only [List.mem_cons, List.mem_singleton] at hj
    rcases hj with rfl | rfl | rfl | rfl | hfalse
    · exact absurd rfl hne
    · simp only [jurisdictionLaws] at hmem
      simp_all
    · simp only [jurisdictionLaws] at hmem
      simp_all
    · simp only [jurisdictionLaws] at hmem
      simp_all
    · simp at hfalse

/-- Witness for `C1`: a CCPA issue survives cleaning for `US` and its law is
in the `US` law set. -/
theorem c1_law_jurisdiction_invariant_witness :
    (⟨"CCPA_US", ["missing requirement"], ["recommendation"]⟩ : PyIssue).law ∈
      jurisdictionLaws "US" :=
  (c1_law_jurisdiction_invariant
      [⟨"CCPA_US", ["missing requirement"], ["recommendation"]⟩] "US" (by decide)).1
    ⟨"CCPA_US", ["missing requirement"], ["recommendation"]⟩ (by decide)

theorem firstParsedChunk_none {chunks : List Chars}
    (h : ∀ c ∈ chunks, jsonLoads (String.mk c) = none) :
    firstParsedChunk chunks = none := by
  induction chunks with
  | nil => rfl
  | cons c rest ih =>
    simp only [firstParsedChunk]
    rw [h c (List.mem_cons_self c rest)]
    exact ih (fun c' hc' => h c' (List.mem_cons_of_mem c hc'))

/-- Claim `C3` — the repair of a truncated LLM response appends exactly one `]` per
unmatched `[` and one closing brace per unmatched open brace (optionally
after stripping trailing commas) and only returns a candidate that re-parses;
and when the raw response contains no parseable JSON object and the repair of
the line-extracted candidate fails, `_extract_json_from_response` raises
nothing and returns the safe default whose `flagged_clauses` and
`compliance_issues` are empty and whose summary is an explanatory error
message. -/
theorem c3_repair_and_safe_default :
    (∀ s r, attemptJsonRepair s = some r → r = simpleRepair s ∨ r = commaRepair s) ∧
    (∀ resp : String,
      (∀ c ∈ braceChunks resp.toList, jsonLoads (String.mk c) = none) →
      (jsonLinesOf resp = [] ∨
        (jsonLoads (String.mk (joinNl (jsonLinesOf resp))) = none ∧
         attemptJsonRepair (String.mk (joinNl (jsonLinesOf resp))) = none)) →
      extractJsonFromResponse resp = .ok fallbackString) ∧
    jsonLoads fallbackString = some fallbackJson := by
  refine ⟨?_, ?_, rfl⟩
  · intro s r h
    unfold attemptJsonRepair at h
    by_cases h1 : (jsonLoads (simpleRepair s)).isSome = true
    · rw [if_pos h1] at h
      cases h
      exact Or.inl rfl
    · rw [if_neg h1] at h
      by_cases h2 : (pyStrip s.toList).getLast? = some ','
      · rw [if_pos h2] at h
        by_cases h3 : (jsonLoads (commaRepair s)).isSome = true
        · rw [if_pos h3] at h
          cases h
          exact Or.inr rfl
        · rw [if_neg h3] at h
          cases h
      · rw [if_neg h2] at h
        cases h
  · intro resp hchunks hline
    show (match firstParsedChunk (braceChunks resp.toList) with
      | some (chunkStr, v) =>
        if isCompleteAnalysisResponse v then
          match normalizeCompleteResponse v with
          | .error e => .error e
          | .ok v' => .ok (dumpJson v')
        else if isPartialComplianceIssue v then
          match wrapPartialResponse v with
          | .error e => .error e
          | .ok v' => .ok (dumpJson v')
        else .ok chunkStr
      | none =>
        if (jsonLinesOf resp).isEmpty then .ok fallbackString
        else
          match jsonLoads (String.mk (joinNl (jsonLinesOf resp))) with
          | some v =>
            if isPartialComplianceIssue v then
              match wrapPartialResponse v with
              | .error e => .error e
              | .ok v' => .ok (dumpJson v')
            else .ok (String.mk (joinNl (jsonLinesOf resp)))
          | none =>
            match attemptJsonRepair (String.mk (joinNl (jsonLinesOf resp))) with
            | some r => .ok r
            | none => .ok fallbackString) = Except.ok (ε := PyErr) fallbackString
    rw [firstParsedChunk_none hchunks]
    rcases hline with hempty | ⟨hparse, hrep⟩
    · rw [hempty]
      rfl
    · by_cases hjls : (jsonLinesOf resp).isEmpty = true
      · rw [if_pos hjls]
      · rw [if_neg hjls, hparse, hrep]

/-- Witness for `C3`: a response with no JSON object at all yields exactly
the safe default string. -/
theorem c3_repair_and_safe_default_witness :
    extractJsonFromResponse "hello \x7b] world" = .ok fallbackString :=
  c3_repair_and_safe_default.2.1 "hello \x7b] world"
    (fun c hc => absurd
      (by rw [show braceChunks ("hello \x7b] world").toList = [] from rfl] at hc; exact hc)
      (List.not_mem_nil c))
    (Or.inl rfl)

theorem firstMaxEntry_cons (e x : String × Nat) (xs : List (String × Nat)) :
    firstMaxEntry e (x :: xs) = firstMaxEntry (if x.2 > e.2 then x else e) xs := rfl

theorem firstMaxEntry_spec (e : String × Nat) (rest : List (String × Nat)) :
    (firstMaxEntry e rest = e ∨ firstMaxEntry e rest ∈ rest) ∧
    e.2 ≤ (firstMaxEntry e rest).2 ∧
    ∀ q ∈ rest, q.2 ≤ (firstMaxEntry e rest).2 := by
  induction rest generalizing e with
  | nil => simp [firstMaxEntry]
  | cons x xs ih =>
    rw [firstMaxEntry_cons]
    by_cases hx : x.2 > e.2
    · rw [if_pos hx]
      obtain ⟨hmem, hle, hall⟩ := ih x
      refine ⟨?_, by omega, ?_⟩
      · rcases hmem with h | h
        · exact Or.inr (by simp [h])
        · exact Or.inr (List.mem_cons_of_mem x h)
      · intro q hq
        rcases List.mem_cons.mp hq with rfl | hq'
        · exact hle
        · exact hall q hq'
    · rw [if_neg hx]
      obtain ⟨hmem, hle, hall⟩ := ih e
      refine ⟨?_, hle, ?_⟩
      · rcases hmem with h | h
        · exact Or.inl h
        · exact Or.inr (List.mem_cons_of_mem x h)
      · intro q hq
        rcases List.mem_cons.mp hq with rfl | hq'
        · omega
        · exact hall q hq'

theorem typeScores_fst (text : String) :
    (typeScores text).map Prod.fst = typeNames := by
  simp [typeScores, typeNames, List.map_map, Function.comp]

/-- Claim `C8` (counterexample) — the claim's contract-type set omits the
`Privacy` family present in the code, and the keyword families are not
pairwise disjoint (`"information"` is a weak indicator of both `Privacy` and
`NDA`): the text `"privacy policy"` is classified as `"Privacy"`, which is
neither one of the claim's six types nor `"General"`. -/
theorem c8_counterexample :
    selectContractType "privacy policy" = "Privacy" ∧
    ("Privacy" ∉ (["Employment", "Service", "NDA", "Rental", "Sales",
        "Partnership"] : List String) ∧ "Privacy" ≠ "General") ∧
    typeIndicators.any (fun f => f.name = "Privacy" ∧ "information" ∈ f.weak) = true ∧
    typeIndicators.any (fun f => f.name = "NDA" ∧ "information" ∈ f.weak) = true := by
  exact ⟨by decide, by decide, by decide, by decide⟩

/-- Claim `C8` (amended) — the classifier scores exactly the seven families
`{Employment, Service, Privacy, NDA, Rental, Sales, Partnership}` with
weights 3/2/1 for strong/moderate/weak keyword hits; the selected type is the
first highest-scoring family if its score is at least 3 and `"General"`
otherwise, so the output is always one of the seven names or `"General"`,
and in the non-`General` case its score is maximal and at least 3. -/
theorem c8_amended_classifier (text : String) :
    (selectContractType text = "General" ∨ selectContractType text ∈ typeNames) ∧
    ((∃ p ∈ typeScores text, selectContractType text = p.1 ∧ 3 ≤ p.2 ∧
        ∀ q ∈ typeScores text, q.2 ≤ p.2) ∨
      (selectContractType text = "General" ∧ ∀ q ∈ typeScores text, q.2 < 3)) := by
  cases hts : typeScores text with
  | nil => exact absurd (congrArg List.length hts) (by simp [typeScores, typeIndicators])
  | cons e rest =>
    have hsel : selectContractType text =
        (if (firstMaxEntry e rest).2 ≥ 3 then (firstMaxEntry e rest).1 else "General") := by
      unfold selectContractType
      rw [hts]
    obtain ⟨hmem, hle, hall⟩ := firstMaxEntry_spec e rest
    have hbmem : firstMaxEntry e rest ∈ e :: rest := by
      rcases hmem with h | h
      · simp [h]
      · exact List.mem_cons_of_mem e h
    have hallts : ∀ q ∈ e :: rest, q.2 ≤ (firstMaxEntry e rest).2 := by
      intro q hq
      rcases List.mem_cons.mp hq with rfl | hq'
      · exact hle
      · exact hall q hq'
    by_cases h3 : (firstMaxEntry e rest).2 ≥ 3
    · rw [if_pos h3] at hsel
      constructor
      · refine Or.inr ?_
        rw [hsel, ← typeScores_fst text, hts]
        exact List.mem_map_of_mem Prod.fst hbmem
      · exact Or.inl ⟨firstMaxEntry e rest, hbmem, hsel, h3, hallts⟩
    · rw [if_neg h3] at hsel
      exact ⟨Or.inl hsel,
        Or.inr ⟨hsel, fun q hq => by have := hallts q hq; omega⟩⟩

/-- Witness for `C8` (amended) at a concrete text. -/
theorem c8_amended_classifier_witness :
    selectContractType "hello" = "General" ∨ selectContractType "hello" ∈ typeNames :=
  (c8_amended_classifier "hello").1

theorem mkSection_genuine {n idx : Nat} {gs : List String} {s : PySection}
    (h : mkSectionFromGroups n idx gs = some s) :
    isGenuineContractSection s.title s.content = true := by
  simp only [mkSectionFromGroups] at h
  split at h
  · split at h
    next hg =>
      cases h
      exact hg
    next => exact absurd h (by simp)
  · split at h
    next hg =>
      cases h
      exact hg
    next => exact absurd h (by simp)
  · exact absurd h (by simp)

theorem foldPatternMatches_inv (idx : Nat) (ms : List RawMatch) (acc : List PySection)
    (hacc : ∀ s ∈ acc, isGenuineContractSection s.title s.content = true) :
    ∀ s ∈ foldPatternMatches idx acc ms,
      isGenuineContractSection s.title s.content = true := by
  induction ms generalizing acc with
  | nil => simpa [foldPatternMatches] using hacc
  | cons m rest ih =>
    have hstep : ∀ s ∈ (match mkSectionFromGroups acc.length idx m.groups with
        | some s' => acc ++ [s'] | none => acc),
        isGenuineContractSection s.title s.content = true := by
      cases h' : mkSectionFromGroups acc.length idx m.groups with
      | none => simpa using hacc
      | some s' =>
        intro s hs
        rcases List.mem_append.mp hs with hs' | hs'
        · exact hacc s hs'
        · rw [List.mem_singleton.mp hs']
          exact mkSection_genuine h'
    have heq : foldPatternMatches idx acc (m :: rest) =
        foldPatternMatches idx (match mkSectionFromGroups acc.length idx m.groups with
          | some s' => acc ++ [s'] | none => acc) rest := rfl
    rw [heq]
    exact ih _ hstep

theorem runSectionPatterns_inv (pms : List (List RawMatch)) (idx : Nat)
    (acc : List PySection)
    (hacc : ∀ s ∈ acc, isGenuineContractSection s.title s.content = true) :
    ∀ s ∈ runSectionPatterns idx pms acc,
      isGenuineContractSection s.title s.content = true := by
  induction pms generalizing idx acc with
  | nil => simpa [runSectionPatterns] using hacc
  | cons ms rest ih =>
    simp only [runSectionPatterns]
    split
    · exact foldPatternMatches_inv idx ms acc hacc
    · exact ih _ _ (foldPatternMatches_inv idx ms acc hacc)

theorem extractMeaningfulParagraphs_inv (text : String) :
    ∀ s ∈ extractMeaningfulParagraphs text,
      isGenuineContractSection s.title s.content = true := by
  intro s hs
  unfold extractMeaningfulParagraphs at hs
  obtain ⟨ip, _, hf⟩ := List.mem_filterMap.mp hs
  simp only at hf
  split at hf
  next hg =>
    cases hf
    exact hg
  next => exact absurd hf (by simp)

theorem genuine_facts {title content : String}
    (h : isGenuineContractSection title content = true) :
    15 ≤ pyWordCount content.toList ∧
    1 ≤ runCount isSentChar content.toList ∧
    2 ≤ contractIndicatorCount (pyLower content.toList) ∧
    5 * content.toList.countP (fun c => !(c.isAlphanum || pyIsSpace c)) ≤
      2 * max content.toList.length 1 ∧
    10 * content.toList.countP Char.isUpper ≤
      7 * max (content.toList.countP Char.isAlpha) 1 := by
  simp only [isGenuineContractSection] at h
  split at h
  · exact absurd h (by simp)
  · split at h
    · exact absurd h (by simp)
    · split at h
      next hSpecial => exact absurd h (by simp)
      next hSpecial =>
        split at h
        next hUpper => exact absurd h (by simp)
        next hUpper =>
          split at h
          next hWord => exact absurd h (by simp)
          next hWord =>
            push_neg at hWord
            refine ⟨hWord.1, hWord.2, of_decide_eq_true h, by omega, by omega⟩

/-- Claim `C7` — every section returned by `_extract_contract_sections_only` (for
any match lists the four structural patterns can produce, and including the
paragraph-splitting fallback) satisfies `_is_genuine_contract_section`: at
least 15 words, at least one sentence terminator, at least two contract
indicators present, special-character ratio at most 0.4 and
uppercase-to-alphabetic ratio at most 0.7; and the returned list has at most
10 sections. -/
theorem c7_sections_genuine (pm : List (List RawMatch)) (text : String) :
    (∀ s ∈ extractContractSectionsOnly pm text,
      isGenuineContractSection s.title s.content = true ∧
      15 ≤ pyWordCount s.content.toList ∧
      1 ≤ runCount isSentChar s.content.toList ∧
      2 ≤ contractIndicatorCount (pyLower s.content.toList) ∧
      5 * s.content.toList.countP (fun c => !(c.isAlphanum || pyIsSpace c)) ≤
        2 * max s.content.toList.length 1 ∧
      10 * s.content.toList.countP Char.isUpper ≤
        7 * max (s.content.toList.countP Char.isAlpha) 1) ∧
    (extractContractSectionsOnly pm text).length ≤ 10 := by
  have hgen : ∀ s ∈ extractContractSectionsOnly pm text,
      isGenuineContractSection s.title s.content = true := by
    intro s hs
    simp only [extractContractSectionsOnly] at hs
    have hs1 := List.mem_of_mem_take hs
    have hs2 := List.mem_mergeSort.mp hs1
    split at hs2
    · rcases List.mem_append.mp hs2 with hs3 | hs3
      · exact runSectionPatterns_inv pm 0 [] (by simp) s hs3
      · exact extractMeaningfulParagraphs_inv text s hs3
    · exact runSectionPatterns_inv pm 0 [] (by simp) s hs2
  constructor
  · intro s hs
    obtain ⟨h1, h2, h3, h4, h5⟩ := genuine_facts (hgen s hs)
    exact ⟨hgen s hs, h1, h2, h3, h4, h5⟩
  · simp only [extractContractSectionsOnly]
    exact List.length_take_le 10 _

unseal List.merge List.mergeSort in
set_option maxRecDepth 40000 in
/-- Witness for `C7`: the fallback paragraph section produced for a concrete
one-paragraph contract satisfies the acceptance predicate. -/
theorem c7_sections_genuine_witness :
    isGenuineContractSection "Paragraph 1"
      "The parties to this agreement shall perform all obligations and duties required under the terms stated herein." = true :=
  ((c7_sections_genuine []
      "The parties to this agreement shall perform all obligations and duties required under the terms stated herein.").1
    ⟨"P1", "Paragraph 1",
      "The parties to this agreement shall perform all obligations and duties required under the terms stated herein.",
      17, 0⟩ (by decide)).1

/-- A Malaysian employment contract satisfying the premise of the
termination scenario: it contains `terminate … without … notice` with neither
`misconduct` nor `gross negligence` nearby, and it also mentions a notice
period with a number, which makes `notice_patterns[0]` match. -/
def c4FailingInput : String :=
  "This employment agreement is made between the employer and the employee. The employer may terminate the employee without any notice. The employee must give 4 weeks notice of resignation."

set_option maxRecDepth 1000000 in
/-- Claim `C4` — on the failing input the first pass does produce the
high-severity Employment Act 1955 Section 12 flag the claim promises, but
`_analyze_termination_provisions` then aborts with `IndexError` (the first
notice pattern has no capture groups, yet `int(match.group(1))` is executed
on its match), so no flagged clause ever reaches the final result and
`analyze_contract` re-raises instead of returning an `AnalysisResult`. -/
theorem c4_termination_index_error :
    (terminationFirstPass c4FailingInput).any
      (fun c => c.severity == "high" &&
        strContains c.issue "Employment Act 1955 Section 12") = true ∧
    analyzeTerminationProvisionsE c4FailingInput = .error .indexError := by
  constructor
  · decide
  · rfl

/-- A raw input on which HTML-tag stripping re-exposes markdown markers: the
tag `<\n>` joins the two stars into `**`, and the `<i>` tags uncover a line
starting with a markdown header and one starting with a list bullet. -/
def c9Example : String :=
  "agreement*<\n>*shall the party terms\n<i># Heading of the agreement here\n<i>- bullet item in agreement here"

set_option maxRecDepth 100000 in
/-- Claim `C9` (counterexample) — the claim says no markdown control sequences
remain in the normalizer's output; on this input the output contains `**`, a
line beginning with a `#` header marker, and a line beginning with a `- `
list bullet. -/
theorem c9_counterexample :
    strContains (preprocessContractText c9Example) "**" = true ∧
    (splitNl (preprocessContractText c9Example).toList).any
      (fun l => "# ".toList.isPrefixOf l) = true ∧
    (splitNl (preprocessContractText c9Example).toList).any
      (fun l => "- ".toList.isPrefixOf l) = true := by
  refine ⟨by decide, by decide, by decide⟩

theorem pyStrip_length_le (s : Chars) : (pyStrip s).length ≤ s.length := by
  unfold pyStrip pyRStrip pyLStrip
  have h1 : ∀ t : Chars, (t.dropWhile pyIsSpace).length ≤ t.length :=
    fun t => (List.dropWhile_sublist _).length_le
  calc ((List.dropWhile pyIsSpace (List.dropWhile pyIsSpace s).reverse).reverse).length
      = (List.dropWhile pyIsSpace (List.dropWhile pyIsSpace s).reverse).length := by
        rw [List.length_reverse]
    _ ≤ ((List.dropWhile pyIsSpace s).reverse).length := h1 _
    _ = (List.dropWhile pyIsSpace s).length := by rw [List.length_reverse]
    _ ≤ s.length := h1 _

theorem splitChar_ne_nil (sep : Char) (s : Chars) : splitChar sep s ≠ [] := by
  cases s with
  | nil => simp [splitChar]
  | cons c rest =>
    unfold splitChar
    split
    · simp
    · split <;> simp

theorem joinChar_splitChar (sep : Char) (s : Chars) :
    joinChar sep (splitChar sep s) = s := by
  induction s with
  | nil => rfl
  | cons c rest ih =>
    unfold splitChar
    by_cases hc : c = sep
    · rw [if_pos hc]
      cases h : splitChar sep rest with
      | nil => exact absurd h (splitChar_ne_nil sep rest)
      | cons x xs =>
        rw [h] at ih
        show joinChar sep ([] :: x :: xs) = c :: rest
        simp only [joinChar, List.nil_append]
        rw [ih, hc]
    · rw [if_neg hc]
      cases h : splitChar sep rest with
      | nil => exact absurd h (splitChar_ne_nil sep rest)
      | cons x xs =>
        rw [h] at ih
        cases xs with
        | nil =>
          show joinChar sep [c :: x] = c :: rest
          simp only [joinChar] at ih ⊢
          rw [ih]
        | cons y ys =>
          show joinChar sep ((c :: x) :: y :: ys) = c :: rest
          simp only [joinChar] at ih ⊢
          rw [List.cons_append, ih]

theorem joinChar_cons_length (sep : Char) (l : Chars) (ls : List Chars) :
    (joinChar sep (l :: ls)).length =
      if ls.isEmpty then l.length else l.length + 1 + (joinChar sep ls).length := by
  cases ls with
  | nil => simp [joinChar]
  | cons x xs =>
    simp [joinChar]
    omega

theorem joinChar_map_length_le (sep : Char) (f : Chars → Chars)
    (h : ∀ l, (f l).length ≤ l.length) (ls : List Chars) :
    (joinChar sep (ls.map f)).length ≤ (joinChar sep ls).length := by
  induction ls with
  | nil => simp [joinChar]
  | cons l rest ih =>
    rw [List.map_cons, joinChar_cons_length, joinChar_cons_length]
    have hl := h l
    cases rest with
    | nil => simpa using hl
    | cons x xs =>
      rw [if_neg (by simp), if_neg (by simp)]
      omega

theorem perLine_length_le (f : Chars → Chars) (h : ∀ l, (f l).length ≤ l.length)
    (s : Chars) : (perLine f s).length ≤ s.length := by
  unfold perLine joinNl splitNl
  calc (joinChar '\n' ((splitChar '\n' s).map f)).length
      ≤ (joinChar '\n' (splitChar '\n' s)).length := joinChar_map_length_le '\n' f h _
    _ = s.length := by rw [joinChar_splitChar]

theorem joinNl_filterMap_length_le (g : Chars → Option Chars)
    (h : ∀ l x, g l = some x → x.length ≤ l.length) (ls : List Chars) :
    (joinNl (ls.filterMap g)).length ≤ (joinNl ls).length := by
  induction ls with
  | nil => simp [joinNl, joinChar]
  | cons l rest ih =>
    unfold joinNl at ih ⊢
    rw [joinChar_cons_length]
    cases hg : g l with
    | none =>
      rw [List.filterMap_cons_none hg]
      cases rest with
      | nil => simp [joinChar]
      | cons x xs =>
        rw [if_neg (by simp)]
        omega
    | some y =>
      rw [List.filterMap_cons_some hg]
      rw [joinChar_cons_length]
      have hy := h l y hg
      by_cases hrest : (rest.filterMap g).isEmpty = true
      · rw [if_pos hrest]
        cases rest with
        | nil => simpa using hy
        | cons x xs =>
          rw [if_neg (by simp)]
          omega
      · rw [if_neg hrest]
        cases rest with
        | nil => simp at hrest
        | cons x xs =>
          rw [if_neg (by simp)]
          omega

theorem headerSub_length_le (fuel : Nat) : ∀ (s : Chars) (b : Bool),
    (headerSub fuel s b).length ≤ s.length := by
  induction fuel with
  | zero => intro s b; simp [headerSub]
  | succ fuel ih =>
    intro s b
    cases s with
    | nil => simp [headerSub]
    | cons c rest =>
      simp only [headerSub]
      split
      · split
        · refine le_trans (ih _ _) ?_
          simp only [List.length_drop, List.length_cons]
          omega
        · simpa using ih rest _
      · simpa using ih rest _

theorem pairSub_length_le (d : Chars) (fuel : Nat) : ∀ s : Chars,
    (pairSub fuel d s).length ≤ s.length := by
  induction fuel with
  | zero => intro s; simp [pairSub]
  | succ fuel ih =>
    intro s
    cases s with
    | nil => simp [pairSub]
    | cons c rest =>
      simp only [pairSub]
      split
      · split
        next i _ =>
          rw [List.length_append]
          have h1 := ih (((c :: rest).drop d.length).drop (i + d.length))
          simp only [List.length_take, List.length_drop, List.length_cons] at h1 ⊢
          omega
        next => simpa using ih rest
      · simpa using ih rest

theorem bulletMatch_length_le {t r : Chars} (h : bulletMatch t = some r) :
    r.length ≤ t.length := by
  simp only [bulletMatch] at h
  split at h
  next b after1 heq =>
    have hlen := congrArg List.length heq
    simp only [List.length_cons, List.length_drop] at hlen
    split at h
    · split at h
      · cases h
        have : (after1.drop (after1.takeWhile pyIsSpace).length).length ≤ after1.length := by
          simp only [List.length_drop]
          omega
        omega
      · exact absurd h (by simp)
    · exact absurd h (by simp)
  next => exact absurd h (by simp)

theorem bulletSub_length_le (fuel : Nat) : ∀ (s : Chars) (b : Bool),
    (bulletSub fuel s b).length ≤ s.length := by
  induction fuel with
  | zero => intro s b; simp [bulletSub]
  | succ fuel ih =>
    intro s b
    cases s with
    | nil => simp [bulletSub]
    | cons c rest =>
      simp only [bulletSub]
      split
      · split
        next r hr => exact le_trans (ih _ _) (bulletMatch_length_le hr)
        next => simpa using ih rest _
      · simpa using ih rest _

theorem numberedMatch_length_le {t r : Chars} (h : numberedMatch t = some r) :
    r.length ≤ t.length := by
  simp only [numberedMatch] at h
  split at h
  · split at h
    next afterDot heq =>
      have hlen := congrArg List.length heq
      simp only [List.length_cons, List.length_drop] at hlen
      split at h
      · split at h
        next u us hequ =>
          split at h
          · cases h
            have hlen2 := congrArg List.length hequ
            simp only [List.length_cons, List.length_drop] at hlen2 ⊢
            omega
          · exact absurd h (by simp)
        next => exact absurd h (by simp)
      · exact absurd h (by simp)
    next => exact absurd h (by simp)
  · exact absurd h (by simp)

theorem numberedSub_length_le (fuel : Nat) : ∀ (s : Chars) (b : Bool),
    (numberedSub fuel s b).length ≤ s.length := by
  induction fuel with
  | zero => intro s b; simp [numberedSub]
  | succ fuel ih =>
    intro s b
    cases s with
    | nil => simp [numberedSub]
    | cons c rest =>
      simp only [numberedSub]
      split
      · split
        next r hr => exact le_trans (ih _ _) (numberedMatch_length_le hr)
        next => simpa using ih rest _
      · simpa using ih rest _

theorem htmlSub_length_le (fuel : Nat) : ∀ s : Chars,
    (htmlSub fuel s).length ≤ s.length := by
  induction fuel with
  | zero => intro s; simp [htmlSub]
  | succ fuel ih =>
    intro s
    cases s with
    | nil => simp [htmlSub]
    | cons c rest =>
      simp only [htmlSub]
      split
      · split
        next i _ =>
          split
          · refine le_trans (ih _) ?_
            simp only [List.length_drop, List.length_cons]
            omega
          · simpa using ih rest
        next => simpa using ih rest
      · simpa using ih rest

theorem nonContractLineSub_length_le (l : Chars) :
    (nonContractLineSub l).length ≤ l.length := by
  simp only [nonContractLineSub]
  split
  · simp
  · exact le_refl _

theorem count_nl_le_consumed (run : Chars) :
    countChar '\n' run ≤
      run.length - (run.reverse.takeWhile (fun x => ¬ x = '\n')).length := by
  have hsplit := List.takeWhile_append_dropWhile
    (p := fun x : Char => decide (¬ x = '\n')) (l := run.reverse)
  have hlen : run.reverse.length =
      (run.reverse.takeWhile (fun x => ¬ x = '\n')).length +
      (run.reverse.dropWhile (fun x => ¬ x = '\n')).length := by
    conv_lhs => rw [← hsplit]
    rw [List.length_append]
  have hcnt : countChar '\n' run = countChar '\n' run.reverse := by
    unfold countChar
    rw [List.countP_reverse]
  have hz : countChar '\n' (run.reverse.takeWhile (fun x => ¬ x = '\n')) = 0 := by
    unfold countChar
    rw [List.countP_eq_zero]
    intro a ha
    have := List.mem_takeWhile_imp ha
    simp at this ⊢
    exact this
  have hsum : countChar '\n' run.reverse =
      countChar '\n' (run.reverse.takeWhile (fun x => ¬ x = '\n')) +
      countChar '\n' (run.reverse.dropWhile (fun x => ¬ x = '\n')) := by
    unfold countChar
    conv_lhs => rw [← hsplit]
    rw [List.countP_append]
  have hle : countChar '\n' (run.reverse.dropWhile (fun x => ¬ x = '\n')) ≤
      (run.reverse.dropWhile (fun x => ¬ x = '\n')).length := List.countP_le_length _
  rw [List.length_reverse] at hlen
  omega

theorem tripleBlankSub_length_le (fuel : Nat) : ∀ s : Chars,
    (tripleBlankSub fuel s).length ≤ s.length := by
  induction fuel with
  | zero => intro s; simp [tripleBlankSub]
  | succ fuel ih =>
    intro s
    cases s with
    | nil => simp [tripleBlankSub]
    | cons c rest =>
      simp only [tripleBlankSub]
      split
      · split
        next h3 =>
          have hcons := count_nl_le_consumed ((c :: rest).takeWhile pyIsSpace)
          have hrun := (List.takeWhile_sublist (l := c :: rest) pyIsSpace).length_le
          have hrec := ih ((c :: rest).drop
            (((c :: rest).takeWhile pyIsSpace).length -
              ((((c :: rest).takeWhile pyIsSpace).reverse).takeWhile
                (fun x => ¬ x = '\n')).length))
          simp only [List.length_cons, List.length_drop] at hrec hrun hcons ⊢
          omega
        next => simpa using ih rest
      · simpa using ih rest

theorem spaceTabSub_length_le (fuel : Nat) : ∀ s : Chars,
    (spaceTabSub fuel s).length ≤ s.length := by
  induction fuel with
  | zero => intro s; simp [spaceTabSub]
  | succ fuel ih =>
    intro s
    cases s with
    | nil => simp [spaceTabSub]
    | cons c rest =>
      simp only [spaceTabSub]
      split
      · have hdrop := (List.dropWhile_sublist
          (l := rest) (fun x : Char => decide (x = ' ' ∨ x = '\t'))).length_le
        have hrec := ih (rest.dropWhile (fun x => x = ' ' ∨ x = '\t'))
        simp only [List.length_cons]
        omega
      · simpa using ih rest

theorem leadingWsSub_length_le (fuel : Nat) : ∀ (s : Chars) (b : Bool),
    (leadingWsSub fuel s b).length ≤ s.length := by
  induction fuel with
  | zero => intro s b; simp [leadingWsSub]
  | succ fuel ih =>
    intro s b
    cases s with
    | nil => simp [leadingWsSub]
    | cons c rest =>
      simp only [leadingWsSub]
      split
      · refine le_trans (ih _ _) ?_
        simp only [List.length_drop]
        omega
      · simpa using ih rest _

theorem meaningfulLine_length_le (l x : Chars) (h : meaningfulLine l = some x) :
    x.length ≤ l.length := by
  simp only [meaningfulLine] at h
  split at h
  · cases h
    simp
  · split at h
    · exact absurd h (by simp)
    · cases h
      exact le_trans (pyStrip_length_le l) (le_refl _)

theorem meaningfulLinesFilter_length_le (s : Chars) :
    (meaningfulLinesFilter s).length ≤ s.length := by
  unfold meaningfulLinesFilter
  calc (joinNl ((splitNl s).filterMap meaningfulLine)).length
      ≤ (joinNl (splitNl s)).length :=
        joinNl_filterMap_length_le meaningfulLine meaningfulLine_length_le _
    _ = s.length := by
        unfold joinNl splitNl
        rw [joinChar_splitChar]

theorem tripleNlSub_length_le (fuel : Nat) : ∀ s : Chars,
    (tripleNlSub fuel s).length ≤ s.length := by
  induction fuel with
  | zero => intro s; simp [tripleNlSub]
  | succ fuel ih =>
    intro s
    cases s with
    | nil => simp [tripleNlSub]
    | cons c rest =>
      simp only [tripleNlSub]
      split
      · split
        next h3 =>
          have hrun := (List.takeWhile_sublist
            (l := c :: rest) (fun x : Char => decide (x = '\n'))).length_le
          have hrec := ih ((c :: rest).drop ((c :: rest).takeWhile (· = '\n')).length)
          simp only [List.length_cons, List.length_drop] at hrec hrun ⊢
          omega
        next => simpa using ih rest
      · simpa using ih rest

theorem preprocessChars_length_le (s : Chars) :
    (preprocessChars s).length ≤ s.length := by
  simp only [preprocessChars]
  refine le_trans (tripleNlSub_length_le _ _) ?_
  refine le_trans (pyStrip_length_le _) ?_
  refine le_trans (meaningfulLinesFilter_length_le _) ?_
  refine le_trans (leadingWsSub_length_le _ _ _) ?_
  refine le_trans (spaceTabSub_length_le _ _) ?_
  refine le_trans (tripleBlankSub_length_le _ _) ?_
  refine le_trans (perLine_length_le _ nonContractLineSub_length_le _) ?_
  refine le_trans (htmlSub_length_le _ _) ?_
  refine le_trans (numberedSub_length_le _ _ _) ?_
  refine le_trans (bulletSub_length_le _ _ _) ?_
  refine le_trans (pairSub_length_le _ _ _) ?_
  refine le_trans (pairSub_length_le _ _ _) ?_
  refine le_trans (pairSub_length_le _ _ _) ?_
  exact headerSub_length_le _ _ _

/-- Claim `C9` (amended) — the text normalizer never lengthens its input: for
every input string the output of `_preprocess_contract_text` has length at
most the input's length.  (The claim's further assertion that no markdown
control sequences remain is refuted by `c9_counterexample`.) -/
theorem c9_amended_length (s : String) :
    (preprocessContractText s).length ≤ s.length :=
  preprocessChars_length_le s.data

/-- Witness for `C9` (amended) at a concrete input. -/
theorem c9_amended_length_witness :
    (preprocessContractText "# header\nbody text of the agreement").length ≤
      ("# header\nbody text of the agreement" : String).length :=
  c9_amended_length "# header\nbody text of the agreement"

/-- Witness for `C2` at concrete inputs. -/
theorem c2_risk_score_formula_witness :
    0 ≤ calculateOverallScore [⟨"CCPA_US", ["a", "b"], ["c"]⟩]
        [⟨"clause", "issue", "high"⟩] ∧
    calculateOverallScore [⟨"CCPA_US", ["a", "b"], ["c"]⟩]
        [⟨"clause", "issue", "high"⟩] ≤ 100 :=
  ⟨(c2_risk_score_formula [⟨"CCPA_US", ["a", "b"], ["c"]⟩]
      [⟨"clause", "issue", "high"⟩]).2.1,
   (c2_risk_score_formula [⟨"CCPA_US", ["a", "b"], ["c"]⟩]
      [⟨"clause", "issue", "high"⟩]).2.2⟩

end ClauseWise
